import Mathlib

/-!
Verification development for the cross-exchange arbitrage engine.

Shallow embedding of the core data model and operations:
`src/exchanges/base.py` (order-book model), `src/analysis/orderbook_analyzer.py`
(spread analyzer), `src/execution.py` (signal validator and smart execution
manager) and `src/bot.py` (bot supervisor).  Python floats are modelled as
exact rationals (`ℚ`), millisecond clock readings as `Int` values threaded
explicitly through the operations that read the wall clock, and fallible
attribute access as `Option`/`Except`.  Division in Lean is total with
`x / 0 = 0`; every theorem that divides guards the denominator away from zero
exactly where the Python code would otherwise raise.
-/

namespace ArbBot

/-- Mirror of `PriceLevel` (`src/exchanges/base.py`): one ladder level. -/
structure PriceLevel where
  price : ℚ
  size : ℚ
  orders_count : Nat := 1
deriving DecidableEq

/-- Walk-the-book accumulator for `estimate_buy_slippage` / `estimate_sell_slippage`
(`src/exchanges/base.py`).  `walkCost last L s` is the total cost (or proceeds) of
filling size `s` against the ladder `L`, where `last` is the price of the most
recently consumed level: the Python loop breaks once `remaining <= 0`, and after
the loop any residual is priced at `asks[-1].price` (resp. `bids[-1].price`),
which is exactly the `last` parameter once the whole ladder has been traversed. -/
def walkCost (last : ℚ) : List PriceLevel → ℚ → ℚ
  | [], s => if 0 < s then s * last else 0
  | l :: rest, s =>
      if s ≤ 0 then 0
      else min s l.size * l.price + walkCost l.price rest (s - min s l.size)

/-- Marginal ladder price at fill depth `s`: the price paid for the next unit
after `s` has been consumed (falling back to `last` beyond visible depth).
Used only in the monotonicity proofs. -/
def walkMarg (last : ℚ) : List PriceLevel → ℚ → ℚ
  | [], _ => last
  | l :: rest, s => if s ≤ l.size then l.price else walkMarg l.price rest (s - l.size)

/-- Mirror of `Orderbook` (`src/exchanges/base.py`): bids sorted high to low,
asks sorted low to high. -/
structure Orderbook where
  exchange : String
  symbol : String
  bids : List PriceLevel := []
  asks : List PriceLevel := []
  timestamp : Int := 0
  latency_ms : ℚ := 0
deriving DecidableEq

/-- `Orderbook.best_bid`: `self.bids[0].price if self.bids else 0.0`. -/
def Orderbook.best_bid (ob : Orderbook) : ℚ :=
  match ob.bids with
  | [] => 0
  | l :: _ => l.price

/-- `Orderbook.best_ask`: `self.asks[0].price if self.asks else 0.0`. -/
def Orderbook.best_ask (ob : Orderbook) : ℚ :=
  match ob.asks with
  | [] => 0
  | l :: _ => l.price

/-- `Orderbook.mid_price`; the Python guard `if self.best_bid and self.best_ask`
is float truthiness, i.e. both prices nonzero. -/
def Orderbook.mid_price (ob : Orderbook) : ℚ :=
  if ob.best_bid ≠ 0 ∧ ob.best_ask ≠ 0 then (ob.best_bid + ob.best_ask) / 2 else 0

/-- `Orderbook.spread` with the same truthiness guard. -/
def Orderbook.spread (ob : Orderbook) : ℚ :=
  if ob.best_bid ≠ 0 ∧ ob.best_ask ≠ 0 then ob.best_ask - ob.best_bid else 0

/-- `Orderbook.spread_bps`: `if self.mid_price` is again float truthiness. -/
def Orderbook.spread_bps (ob : Orderbook) : ℚ :=
  if ob.mid_price ≠ 0 then ob.spread / ob.mid_price * 10000 else 0

/-- `Orderbook.bid_depth`: total bid size. -/
def Orderbook.bid_depth (ob : Orderbook) : ℚ :=
  (ob.bids.map PriceLevel.size).sum

/-- `Orderbook.ask_depth`: total ask size. -/
def Orderbook.ask_depth (ob : Orderbook) : ℚ :=
  (ob.asks.map PriceLevel.size).sum

/-- `Orderbook.imbalance`: `(bid_depth - ask_depth) / (bid_depth + ask_depth)`,
returning `0.0` only when the total is zero. -/
def Orderbook.imbalance (ob : Orderbook) : ℚ :=
  let total := ob.bid_depth + ob.ask_depth
  if total = 0 then 0 else (ob.bid_depth - ob.ask_depth) / total

/-- `Orderbook.estimate_buy_slippage`: walk the asks low to high, price any
residual at the deepest visible ask, and report the percent deviation of the
average fill price from the best ask. -/
def Orderbook.estimate_buy_slippage (ob : Orderbook) (size : ℚ) : ℚ :=
  if ob.asks = [] ∨ size ≤ 0 then 0
  else
    let total_cost := walkCost 0 ob.asks size
    let avg_price := total_cost / size
    (avg_price - ob.best_ask) / ob.best_ask * 100

/-- `Orderbook.estimate_sell_slippage`: walk the bids high to low and report the
percent deviation of the average fill price below the best bid. -/
def Orderbook.estimate_sell_slippage (ob : Orderbook) (size : ℚ) : ℚ :=
  if ob.bids = [] ∨ size ≤ 0 then 0
  else
    let total_proceeds := walkCost 0 ob.bids size
    let avg_price := total_proceeds / size
    (ob.best_bid - avg_price) / ob.best_bid * 100

/-- Ask ladders are sorted ascending by price (§3 of the data model). -/
def sortedAsc (L : List PriceLevel) : Prop :=
  L.Pairwise fun a b => a.price ≤ b.price

/-- Bid ladders are sorted descending by price (§3 of the data model). -/
def sortedDesc (L : List PriceLevel) : Prop :=
  L.Pairwise fun a b => b.price ≤ a.price

/-- All level sizes are nonnegative (§3 invariant `size ≥ 0`). -/
def sizesNonneg (L : List PriceLevel) : Prop :=
  ∀ l ∈ L, 0 ≤ l.size

instance : DecidablePred sortedAsc := fun L => List.instDecidablePairwise L
instance : DecidablePred sortedDesc := fun L => List.instDecidablePairwise L
instance : DecidablePred sizesNonneg := fun L => List.decidableBAll _ L

/-- Mirror of `SpreadOpportunity` (`src/analysis/orderbook_analyzer.py`). -/
structure SpreadOpportunity where
  symbol : String
  buy_exchange : String
  sell_exchange : String
  buy_price : ℚ
  sell_price : ℚ
  spread_percent : ℚ
  spread_bps : ℚ
  buy_slippage_pct : ℚ := 0
  sell_slippage_pct : ℚ := 0
  net_spread_after_slippage : ℚ := 0
  buy_ob_imbalance : ℚ := 0
  sell_ob_imbalance : ℚ := 0
  buy_available_liquidity : ℚ := 0
  sell_available_liquidity : ℚ := 0
  recommended_size : ℚ := 0
  max_profitable_size : ℚ := 0
  expected_profit_usd : ℚ := 0
  confidence_score : ℚ := 0
  buy_latency_ms : ℚ := 0
  sell_latency_ms : ℚ := 0
  total_latency_ms : ℚ := 0
  timestamp : Int := 0
deriving DecidableEq

/-- Mirror of `OrderbookAnalyzer` (`src/analysis/orderbook_analyzer.py`);
the mutable `_price_history` cache is unused by the operations modelled here. -/
structure OrderbookAnalyzer where
  default_trade_size : ℚ := 1
  fee_bps : ℚ := 5
deriving DecidableEq

/-- Loop body of `OrderbookAnalyzer._find_max_profitable_size`: ten bisection
steps on `[lo, hi]`, raising `lo` to the midpoint while the net spread at the
midpoint stays positive; `break` on a nonpositive midpoint returns `lo`. -/
def maxProfGo (ob_buy ob_sell : Orderbook) (fee_pct : ℚ) : Nat → ℚ → ℚ → ℚ
  | 0, lo, _ => lo
  | n + 1, lo, hi =>
      let mid := (lo + hi) / 2
      if mid ≤ 0 then lo
      else
        let buy_slippage := ob_buy.estimate_buy_slippage mid
        let sell_slippage := ob_sell.estimate_sell_slippage mid
        let spread_pct := (ob_sell.best_bid - ob_buy.best_ask) / ob_buy.best_ask * 100
        let net_spread := spread_pct - buy_slippage - sell_slippage - fee_pct
        if 0 < net_spread then maxProfGo ob_buy ob_sell fee_pct n mid hi
        else maxProfGo ob_buy ob_sell fee_pct n lo mid

/-- `OrderbookAnalyzer._find_max_profitable_size` (the leading underscore of the
Python name is dropped): bounded bisection for the largest size with positive
net spread. -/
def OrderbookAnalyzer.find_max_profitable_size
    (an : OrderbookAnalyzer) (ob_buy ob_sell : Orderbook) : ℚ :=
  if ob_buy.asks = [] ∨ ob_sell.bids = [] then 0
  else
    let max_size := min ob_buy.ask_depth ob_sell.bid_depth
    if max_size ≤ 0 then 0
    else maxProfGo ob_buy ob_sell (an.fee_bps / 100) 10 0 max_size

/-- `OrderbookAnalyzer._calculate_confidence` (underscore dropped): additive
score capped at 1. -/
def OrderbookAnalyzer.calculate_confidence
    (_an : OrderbookAnalyzer) (ob_buy ob_sell : Orderbook)
    (_spread_pct net_spread max_size : ℚ) : ℚ :=
  let s1 : ℚ :=
    if 0.5 < net_spread then 0.4
    else if 0.2 < net_spread then 0.3
    else if 0.1 < net_spread then 0.2
    else if 0 < net_spread then 0.1
    else 0
  let s2 : ℚ :=
    if 10 < max_size then 0.3
    else if 5 < max_size then 0.2
    else if 1 < max_size then 0.1
    else 0
  let total_latency := ob_buy.latency_ms + ob_sell.latency_ms
  let s3 : ℚ :=
    if total_latency < 100 then 0.15
    else if total_latency < 200 then 0.1
    else if total_latency < 500 then 0.05
    else 0
  let s4 : ℚ :=
    (if 5 ≤ ob_buy.asks.length ∧ 5 ≤ ob_sell.bids.length then 0.1 else 0) +
      (if |ob_buy.imbalance| < 0.5 ∧ |ob_sell.imbalance| < 0.5 then 0.05 else 0)
  min (s1 + s2 + s3 + s4) 1

/-- `OrderbookAnalyzer.analyze_spread`; `now_ms` stands for the
`int(time.time() * 1000)` timestamp taken when the opportunity is built, and
`trade_size = None` or `0.0` falls back to `default_trade_size` (Python
`trade_size or self.default_trade_size`). -/
def OrderbookAnalyzer.analyze_spread
    (an : OrderbookAnalyzer) (ob_buy ob_sell : Orderbook)
    (trade_size : Option ℚ) (now_ms : Int) : Option SpreadOpportunity :=
  if ob_buy.asks = [] ∨ ob_sell.bids = [] then none
  else
    let size := match trade_size with
      | none => an.default_trade_size
      | some s => if s = 0 then an.default_trade_size else s
    let buy_price := ob_buy.best_ask
    let sell_price := ob_sell.best_bid
    if buy_price ≤ 0 ∨ sell_price ≤ 0 then none
    else
      let spread_pct := (sell_price - buy_price) / buy_price * 100
      let buy_slippage := ob_buy.estimate_buy_slippage size
      let sell_slippage := ob_sell.estimate_sell_slippage size
      let net_spread := spread_pct - (buy_slippage + sell_slippage) - an.fee_bps / 100
      let max_size := an.find_max_profitable_size ob_buy ob_sell
      let recommended_size := min size (max_size * 0.5)
      let expected_profit :=
        if 0 < net_spread then net_spread / 100 * recommended_size * buy_price else 0
      some
        { symbol := ob_buy.symbol
          buy_exchange := ob_buy.exchange
          sell_exchange := ob_sell.exchange
          buy_price := buy_price
          sell_price := sell_price
          spread_percent := spread_pct
          spread_bps := spread_pct * 100
          buy_slippage_pct := buy_slippage
          sell_slippage_pct := sell_slippage
          net_spread_after_slippage := net_spread
          buy_ob_imbalance := ob_buy.imbalance
          sell_ob_imbalance := ob_sell.imbalance
          buy_available_liquidity := ob_buy.ask_depth
          sell_available_liquidity := ob_sell.bid_depth
          recommended_size := recommended_size
          max_profitable_size := max_size
          expected_profit_usd := expected_profit
          confidence_score :=
            an.calculate_confidence ob_buy ob_sell spread_pct net_spread max_size
          buy_latency_ms := ob_buy.latency_ms
          sell_latency_ms := ob_sell.latency_ms
          total_latency_ms := ob_buy.latency_ms + ob_sell.latency_ms
          timestamp := now_ms }

/-- `OrderbookAnalyzer.find_best_opportunity`: evaluate both directions and
keep the one with the strictly larger net spread (`opp_1 if opp_1.net > opp_2.net
else opp_2`). -/
def OrderbookAnalyzer.find_best_opportunity
    (an : OrderbookAnalyzer) (ob_a ob_b : Orderbook)
    (trade_size : Option ℚ) (now_ms : Int) : Option SpreadOpportunity :=
  match an.analyze_spread ob_a ob_b trade_size now_ms,
      an.analyze_spread ob_b ob_a trade_size now_ms with
  | none, none => none
  | none, some o2 => some o2
  | some o1, none => some o1
  | some o1, some o2 =>
      if o2.net_spread_after_slippage < o1.net_spread_after_slippage then some o1
      else some o2

/-- Per-side walk-the-book slippage, selected by the Python side string. -/
def slippageForSide (ob : Orderbook) (side : String) (qty : ℚ) : ℚ :=
  if side = "buy" then ob.estimate_buy_slippage qty else ob.estimate_sell_slippage qty

/-- Loop body of the safe-quantity bisection: ten steps keeping `lo` at a size
whose slippage (in bps) is within the bound. -/
def safeQtyGo (ob : Orderbook) (side : String) (max_slippage_bps : ℚ) :
    Nat → ℚ → ℚ → ℚ
  | 0, lo, _ => lo
  | n + 1, lo, hi =>
      let mid := (lo + hi) / 2
      if slippageForSide ob side mid * 100 ≤ max_slippage_bps then
        safeQtyGo ob side max_slippage_bps n mid hi
      else safeQtyGo ob side max_slippage_bps n lo mid

/-- Modelled from the spec: `OrderbookAnalyzer.calculate_max_safe_qty` is
invoked by `SmartExecutionManager._calculate_safe_qty` but is defined nowhere in
the source tree — only its caller exists.  Per §4.5 (Rule of the Weakest) it is
"the same bisection used in §4.3 but with a slippage-only predicate": bounds
`[0, depth of the relevant side]`, ten fixed iterations, predicate
walk-the-book slippage `≤ max_slippage_bps`. -/
def OrderbookAnalyzer.calculate_max_safe_qty
    (_an : OrderbookAnalyzer) (ob : Orderbook) (side : String)
    (max_slippage_bps : ℚ) : ℚ :=
  let depth := if side = "buy" then ob.ask_depth else ob.bid_depth
  if depth ≤ 0 then 0
  else safeQtyGo ob side max_slippage_bps 10 0 depth

/-- Mirror of `ExecutionMode` (`src/execution.py`). -/
inductive ExecutionMode
  | idle
  | entry
  | exit
deriving DecidableEq

/-- Mirror of `ExecutionState` (`src/execution.py`). -/
inductive ExecutionState
  | idle
  | executing
  | completed
  | paused
deriving DecidableEq

/-- Mirror of `EntryConfig` (`src/execution.py`). -/
structure EntryConfig where
  entry_start_pct : ℚ := 0.5
  entry_full_pct : ℚ := 1.0
  target_amount : ℚ := 15.0
  max_slippage_pct : ℚ := 0.05
  refill_delay_ms : Int := 500
  min_validity_ms : Int := 100
deriving DecidableEq

/-- Mirror of `ExitConfig` (`src/execution.py`). -/
structure ExitConfig where
  max_slippage_pct : ℚ := 0.05
  refill_delay_ms : Int := 500
  min_validity_ms : Int := 100
deriving DecidableEq

/-- Mirror of `SliceResult` (`src/execution.py`); the formatted-number parts of
the success `reason` string are abstracted to the constant `"Slice"`. -/
structure SliceResult where
  should_execute : Bool
  size : ℚ
  reason : String
  safe_qty_a : ℚ := 0
  safe_qty_b : ℚ := 0
  remaining_target : ℚ := 0
  capped_by_liquidity : Bool := false
deriving DecidableEq

/-- Mirror of `SpreadSample` (`src/execution.py`). -/
structure SpreadSample where
  spread : ℚ
  timestamp_ms : Int
  above_threshold : Bool
deriving DecidableEq

/-- Mirror of `SignalValidator` (`src/execution.py`); `_samples` is a
`deque(maxlen=100)` and `_valid_since` the arming timestamp. -/
structure SignalValidator where
  min_validity_ms : Int := 100
  samples : List SpreadSample := []
  valid_since : Option Int := none
deriving DecidableEq

/-- `SignalValidator.update_config`: hot-reload of the validity duration only. -/
def SignalValidator.update_config (v : SignalValidator) (min_validity_ms : Int) :
    SignalValidator :=
  { v with min_validity_ms := min_validity_ms }

/-- `SignalValidator.record` at wall-clock `now_ms`: append the sample (the
deque drops the oldest entries beyond 100), arm `valid_since` on the first
above-threshold sample, clear it on any below-threshold sample. -/
def SignalValidator.record (v : SignalValidator) (spread threshold : ℚ)
    (now_ms : Int) : SignalValidator :=
  let above := decide (threshold ≤ spread)
  let appended := v.samples ++ [⟨spread, now_ms, above⟩]
  { v with
    samples := if 100 < appended.length then appended.drop (appended.length - 100)
      else appended
    valid_since :=
      if above then
        match v.valid_since with
        | none => some now_ms
        | some t => some t
      else none }

/-- `SignalValidator.is_valid` at wall-clock `now_ms`. -/
def SignalValidator.is_valid (v : SignalValidator) (now_ms : Int) : Bool :=
  match v.valid_since with
  | none => false
  | some t => v.min_validity_ms ≤ now_ms - t

/-- `SignalValidator.reset`. -/
def SignalValidator.reset (v : SignalValidator) : SignalValidator :=
  { v with samples := [], valid_since := none }

/-- Mirror of `SmartExecutionManager` (`src/execution.py`).  The analyzer
handle is `Option` as in the constructor; all clock reads (`_now_ms`) become
explicit `now_ms` arguments of the operations. -/
structure SmartExecutionManager where
  analyzer : Option OrderbookAnalyzer := none
  mode : ExecutionMode := .idle
  state : ExecutionState := .idle
  entry_config : Option EntryConfig := none
  target_amount : ℚ := 0
  executed_amount : ℚ := 0
  exit_config : Option ExitConfig := none
  exit_target : ℚ := 0
  last_execution_time_ms : Int := 0
  current_refill_delay_ms : Int := 500
  signal_validator : SignalValidator := {}
  slices_executed : Nat := 0
  total_volume : ℚ := 0
  executions : List ℚ := []
deriving DecidableEq

/-- `SmartExecutionManager.start_entry`. -/
def SmartExecutionManager.start_entry (m : SmartExecutionManager)
    (config : EntryConfig) : SmartExecutionManager :=
  { m with
    entry_config := some config
    mode := .entry
    state := .executing
    target_amount := config.target_amount
    executed_amount := 0
    current_refill_delay_ms := config.refill_delay_ms
    last_execution_time_ms := 0
    slices_executed := 0
    executions := []
    signal_validator := { min_validity_ms := config.min_validity_ms } }

/-- `SmartExecutionManager.update_entry_config`: hot-reload entry config,
refill delay and the validator duration. -/
def SmartExecutionManager.update_entry_config (m : SmartExecutionManager)
    (config : EntryConfig) : SmartExecutionManager :=
  { m with
    entry_config := some config
    current_refill_delay_ms := config.refill_delay_ms
    signal_validator := m.signal_validator.update_config config.min_validity_ms }

/-- `SmartExecutionManager.start_exit`. -/
def SmartExecutionManager.start_exit (m : SmartExecutionManager)
    (position_size : ℚ) (config : Option ExitConfig) : SmartExecutionManager :=
  let cfg := config.getD {}
  { m with
    exit_config := some cfg
    mode := .exit
    state := .executing
    exit_target := position_size
    executed_amount := 0
    current_refill_delay_ms := cfg.refill_delay_ms
    last_execution_time_ms := 0
    slices_executed := 0
    executions := []
    signal_validator := { min_validity_ms := cfg.min_validity_ms } }

/-- `SmartExecutionManager.can_fire` at wall-clock `now_ms`: true before the
first fire, then once `refill_delay_ms` has elapsed. -/
def SmartExecutionManager.can_fire (m : SmartExecutionManager) (now_ms : Int) :
    Bool :=
  if m.last_execution_time_ms = 0 then true
  else m.current_refill_delay_ms ≤ now_ms - m.last_execution_time_ms

/-- `SmartExecutionManager._calculate_safe_qty` (underscore dropped): delegate
to the analyzer when present, otherwise fall back to 10% of the visible depth. -/
def SmartExecutionManager.calculate_safe_qty (m : SmartExecutionManager)
    (ob : Orderbook) (side : String) (max_slippage_bps : ℚ) : ℚ :=
  match m.analyzer with
  | some an => an.calculate_max_safe_qty ob side max_slippage_bps
  | none =>
      if side = "buy" then if ob.asks = [] then 0 else ob.ask_depth * 0.1
      else if ob.bids = [] then 0 else ob.bid_depth * 0.1

/-- `SmartExecutionManager._get_remaining` (underscore dropped). -/
def SmartExecutionManager.get_remaining (m : SmartExecutionManager) : ℚ :=
  match m.mode with
  | .entry => m.target_amount - m.executed_amount
  | .exit => m.exit_target - m.executed_amount
  | .idle => 0

/-- `SmartExecutionManager.calculate_next_slice`: Rule of the Weakest,
`slice = min(safe_qty_a, safe_qty_b, remaining)`. -/
def SmartExecutionManager.calculate_next_slice (m : SmartExecutionManager)
    (ob_a ob_b : Orderbook) (direction : String) (max_slippage_pct : ℚ) :
    SliceResult :=
  let remaining := m.get_remaining
  if remaining ≤ 0 then
    { should_execute := false, size := 0, reason := "No remaining target" }
  else
    let max_slippage_bps := max_slippage_pct * 100
    let safe_qty_a :=
      if direction = "buy" then m.calculate_safe_qty ob_a "buy" max_slippage_bps
      else m.calculate_safe_qty ob_a "sell" max_slippage_bps
    let safe_qty_b :=
      if direction = "buy" then m.calculate_safe_qty ob_b "sell" max_slippage_bps
      else m.calculate_safe_qty ob_b "buy" max_slippage_bps
    let slice_size := min (min safe_qty_a safe_qty_b) remaining
    if slice_size ≤ 0 then
      { should_execute := false, size := 0,
        reason := "Insufficient liquidity on both sides",
        safe_qty_a := safe_qty_a, safe_qty_b := safe_qty_b,
        remaining_target := remaining }
    else
      { should_execute := true, size := slice_size, reason := "Slice",
        safe_qty_a := safe_qty_a, safe_qty_b := safe_qty_b,
        remaining_target := remaining,
        capped_by_liquidity := decide (slice_size < remaining) }

/-- `SmartExecutionManager._calculate_entry_intensity` (underscore dropped):
0 at or below the start threshold, 1 at or above the full threshold, otherwise
a linear ramp from 10% to 100%. -/
def SmartExecutionManager.calculate_entry_intensity (m : SmartExecutionManager)
    (spread : ℚ) : ℚ :=
  match m.entry_config with
  | none => 1
  | some cfg =>
      if spread ≤ cfg.entry_start_pct then 0
      else if cfg.entry_full_pct ≤ spread then 1
      else
        0.1 + 0.9 * ((spread - cfg.entry_start_pct) /
          (cfg.entry_full_pct - cfg.entry_start_pct))

/-- `SmartExecutionManager.update` at wall-clock `now_ms`: the main tick
handler, returning the updated manager plus the optional `SliceResult`. -/
def SmartExecutionManager.update (m : SmartExecutionManager) (now_ms : Int)
    (spread : ℚ) (ob_a ob_b : Orderbook) :
    SmartExecutionManager × Option SliceResult :=
  if m.state ≠ .executing then (m, none)
  else if m.get_remaining ≤ 0 then ({ m with state := .completed }, none)
  else if ¬ m.can_fire now_ms then (m, none)
  else
    match m.mode, m.entry_config with
    | .entry, some cfg =>
        let v := m.signal_validator.record spread cfg.entry_start_pct now_ms
        let m1 := { m with signal_validator := v }
        if ¬ v.is_valid now_ms then (m1, none)
        else
          let intensity := m1.calculate_entry_intensity spread
          let result := m1.calculate_next_slice ob_a ob_b "buy" cfg.max_slippage_pct
          let result :=
            if result.should_execute then { result with size := result.size * intensity }
            else result
          (m1, some result)
    | _, _ =>
        match m.mode, m.exit_config with
        | .exit, some cfg =>
            (m, some (m.calculate_next_slice ob_a ob_b "sell" cfg.max_slippage_pct))
        | _, _ => (m, none)

/-- `SmartExecutionManager.record_execution` at wall-clock `now_ms`: a
successful positive quantity is added to `executed_amount` unconditionally and
the state completes once the remaining target is nonpositive. -/
def SmartExecutionManager.record_execution (m : SmartExecutionManager)
    (qty : ℚ) (success : Bool) (now_ms : Int) : SmartExecutionManager :=
  if success = true ∧ 0 < qty then
    let m1 :=
      { m with
        executed_amount := m.executed_amount + qty
        last_execution_time_ms := now_ms
        slices_executed := m.slices_executed + 1
        total_volume := m.total_volume + qty
        executions := m.executions ++ [qty] }
    if m1.get_remaining ≤ 0 then { m1 with state := .completed } else m1
  else m

/-- `SmartExecutionManager.reset` (note: `_total_volume` is not cleared by the
Python `reset`, and the validator keeps its configured duration). -/
def SmartExecutionManager.reset (m : SmartExecutionManager) :
    SmartExecutionManager :=
  { m with
    mode := .idle
    state := .idle
    entry_config := none
    exit_config := none
    target_amount := 0
    exit_target := 0
    executed_amount := 0
    last_execution_time_ms := 0
    slices_executed := 0
    executions := []
    signal_validator := m.signal_validator.reset }

/-- The public operations of `SmartExecutionManager`, with every wall-clock
read threaded as an explicit `now_ms`. -/
inductive ManagerOp
  | start_entry (config : EntryConfig)
  | start_exit (position_size : ℚ) (config : Option ExitConfig)
  | update_entry_config (config : EntryConfig)
  | tick (now_ms : Int) (spread : ℚ) (ob_a ob_b : Orderbook)
  | record_execution (now_ms : Int) (qty : ℚ) (success : Bool)
  | reset

/-- One manager operation as a state transition (the `tick` slice result is
returned to the supervisor and does not feed back into the manager state). -/
def managerStep (m : SmartExecutionManager) : ManagerOp → SmartExecutionManager
  | .start_entry config => m.start_entry config
  | .start_exit position_size config => m.start_exit position_size config
  | .update_entry_config config => m.update_entry_config config
  | .tick now_ms spread ob_a ob_b => (m.update now_ms spread ob_a ob_b).1
  | .record_execution now_ms qty success => m.record_execution qty success now_ms
  | .reset => m.reset

/-- Run a sequence of manager operations from a given state. -/
def runManager (m : SmartExecutionManager) (ops : List ManagerOp) :
    SmartExecutionManager :=
  ops.foldl managerStep m

/-- The target of the active mode, as used by `_get_remaining` and
`get_status`. -/
def SmartExecutionManager.active_target (m : SmartExecutionManager) : ℚ :=
  match m.mode with
  | .entry => m.target_amount
  | .exit => m.exit_target
  | .idle => 0

/-- Mirror of `BotConfig` (`src/bot.py`): exactly the fields of the dataclass. -/
structure BotConfig where
  id : String
  symbol : String
  exchange_a : String
  exchange_b : String
  entry_start_pct : ℚ := 0.5
  entry_full_pct : ℚ := 1.0
  target_amount : ℚ := 15.0
  max_slippage_pct : ℚ := 0.05
  refill_delay_ms : Int := 500
  min_validity_ms : Int := 100
  poll_interval_ms : Int := 50
  use_websocket : Bool := false
  dry_run : Bool := true
  fee_bps : ℚ := 5.0
deriving DecidableEq

/-- The attribute names of the `BotConfig` dataclass, in declaration order. -/
def botConfigFields : List String :=
  ["id", "symbol", "exchange_a", "exchange_b", "entry_start_pct",
   "entry_full_pct", "target_amount", "max_slippage_pct", "refill_delay_ms",
   "min_validity_ms", "poll_interval_ms", "use_websocket", "dry_run", "fee_bps"]

/-- Python attribute lookup for `self.config.max_position_size` in
`SingleBot._analyze_opportunity`: a dataclass instance raises `AttributeError`
for any name outside its field list, so the lookup succeeds (the `some` branch
is dead code) only if `"max_position_size"` were among `botConfigFields`. -/
def BotConfig.max_position_size? (_c : BotConfig) : Option ℚ :=
  if "max_position_size" ∈ botConfigFields then some 0 else none

/-- Mirror of `HFTStats` (`src/bot.py`); `min_latency_ms = none` models the
initial `float('inf')`. -/
structure HFTStats where
  polls : Nat := 0
  ws_updates : Nat := 0
  opportunities : Nat := 0
  profitable_opportunities : Nat := 0
  trades : Nat := 0
  errors : Nat := 0
  start_time : Int := 0
  avg_latency_ms : ℚ := 0
  min_latency_ms : Option ℚ := none
  max_latency_ms : ℚ := 0
  last_spread : ℚ := 0
  last_net_spread : ℚ := 0
  best_spread_seen : ℚ := 0
  avg_spread : ℚ := 0
  last_opportunity : Option SpreadOpportunity := none
deriving DecidableEq

/-- `HFTStats.record_latency`: running min/max plus an EMA with alpha 0.1
(seeded by the first sample while the EMA is still 0). -/
def HFTStats.record_latency (st : HFTStats) (latency_ms : ℚ) : HFTStats :=
  { st with
    min_latency_ms := some (match st.min_latency_ms with
      | none => latency_ms
      | some v => min v latency_ms)
    max_latency_ms := max st.max_latency_ms latency_ms
    avg_latency_ms :=
      if st.avg_latency_ms = 0 then latency_ms
      else 0.1 * latency_ms + 0.9 * st.avg_latency_ms }

/-- `HFTStats.record_spread`: last/best plus an EMA with alpha 0.05. -/
def HFTStats.record_spread (st : HFTStats) (spread : ℚ) : HFTStats :=
  { st with
    last_spread := spread
    best_spread_seen := max st.best_spread_seen spread
    avg_spread :=
      if st.avg_spread = 0 then spread
      else 0.05 * spread + 0.95 * st.avg_spread }

/-- Mirror of `OrderbookState` (`src/bot.py`). -/
structure OrderbookState where
  exchange_a : Option Orderbook := none
  exchange_b : Option Orderbook := none
  last_update : Int := 0
deriving DecidableEq

/-- Mirror of the `SingleBot` state (`src/bot.py`): configuration, statistics,
cached orderbooks, the analyzer and the execution manager it owns.  Adapter
handles, logging and the frontend callback are I/O collaborators outside the
embedding. -/
structure SingleBot where
  config : BotConfig
  stats : HFTStats := {}
  orderbooks : OrderbookState := {}
  analyzer : OrderbookAnalyzer
  execution_manager : SmartExecutionManager
deriving DecidableEq

/-- Observable actions of one supervisor tick, used to state which collaborators
a tick invokes.  `manager_update_called` would mark a call to
`SmartExecutionManager.update`; `analyzer_fed` marks the
`find_best_opportunity` call; `dry_run_trade` the dry-run trade count;
`execute_trade_task` the spawned live-trade task; `ui_update` the frontend
callback; `error_caught` the `except` branch of `poll`. -/
inductive BotEvent
  | analyzer_fed
  | manager_update_called
  | dry_run_trade
  | execute_trade_task
  | ui_update
  | error_caught
deriving DecidableEq

/-- `SingleBot._analyze_opportunity` (underscore dropped), at wall-clock
`now_ms`.  The very first action evaluates `self.config.max_position_size`,
whose failure (`AttributeError`) is modelled as the `Except.error` branch and
aborts the step before any statistic is touched. -/
def SingleBot.analyze_opportunity (bot : SingleBot) (now_ms : Int) :
    Except String (SingleBot × List BotEvent) :=
  match bot.orderbooks.exchange_a, bot.orderbooks.exchange_b with
  | some ob_a, some ob_b =>
      match bot.config.max_position_size? with
      | none => .error "AttributeError"
      | some sz =>
          match bot.analyzer.find_best_opportunity ob_a ob_b (some sz) now_ms with
          | none => .ok (bot, [.analyzer_fed])
          | some opp =>
              let st := (bot.stats.record_spread opp.spread_percent).record_latency
                opp.total_latency_ms
              let st :=
                { st with
                  last_net_spread := opp.net_spread_after_slippage
                  last_opportunity := some opp
                  opportunities := st.opportunities + 1 }
              if bot.config.entry_start_pct ≤ opp.net_spread_after_slippage then
                let st := { st with
                  profitable_opportunities := st.profitable_opportunities + 1 }
                if bot.config.dry_run then
                  .ok ({ bot with stats := { st with trades := st.trades + 1 } },
                    [.analyzer_fed, .dry_run_trade, .ui_update])
                else
                  .ok ({ bot with stats := st },
                    [.analyzer_fed, .execute_trade_task, .ui_update])
              else .ok ({ bot with stats := st }, [.analyzer_fed, .ui_update])
  | _, _ => .ok (bot, [])

/-- `SingleBot.poll` (REST mode), with the two parallel fetches passed as
`Option Orderbook` results, their joint wall time as `latency_ms` and the
clock as `now_ms`.  Any exception inside the `try` block — in this code base
the `AttributeError` from the analysis step — is caught, counted in
`stats.errors` and ends the tick. -/
def SingleBot.poll (bot : SingleBot) (fetch_a fetch_b : Option Orderbook)
    (latency_ms : ℚ) (now_ms : Int) : SingleBot × List BotEvent :=
  let bot := { bot with stats := { bot.stats with polls := bot.stats.polls + 1 } }
  let bot := { bot with stats := bot.stats.record_latency latency_ms }
  match fetch_a, fetch_b with
  | some ob_a, some ob_b =>
      let bot := { bot with orderbooks :=
        { exchange_a := some ob_a, exchange_b := some ob_b, last_update := now_ms } }
      match bot.analyze_opportunity now_ms with
      | .error _ =>
          ({ bot with stats := { bot.stats with errors := bot.stats.errors + 1 } },
            [.error_caught])
      | .ok (bot2, events) => (bot2, events ++ [.ui_update])
  | _, _ =>
      ({ bot with stats := { bot.stats with errors := bot.stats.errors + 1 } }, [])

/-- Concrete manager used to instantiate the C10 scenario. -/
def c10Manager : SmartExecutionManager :=
  { analyzer := some {}
    mode := .entry
    state := .executing
    entry_config := some {}
    target_amount := 10
    signal_validator := { min_validity_ms := 100, valid_since := some 0 } }

/-- Concrete books used to instantiate the C10 scenario. -/
def c10BookA : Orderbook :=
  { exchange := "A", symbol := "S", bids := [⟨99, 10, 1⟩], asks := [⟨100, 10, 1⟩] }

/-- Second concrete book for the C10 scenario. -/
def c10BookB : Orderbook :=
  { exchange := "B", symbol := "S", bids := [⟨101, 10, 1⟩], asks := [⟨102, 10, 1⟩] }

/-- Concrete bot used for the C3 failing input: default configuration, both
fetches delivering a populated book. -/
def c3Bot : SingleBot :=
  { config :=
      { id := "b1"
        symbol := "ETH"
        exchange_a := "lighter"
        exchange_b := "paradex" }
    analyzer := { default_trade_size := 15, fee_bps := 5 }
    execution_manager :=
      { analyzer := some { default_trade_size := 15, fee_bps := 5 } } }

/-- Book delivered by venue A in the C3 failing input. -/
def c3BookA : Orderbook :=
  { exchange := "lighter", symbol := "ETH", bids := [⟨99, 1, 1⟩],
    asks := [⟨100, 1, 1⟩] }

/-- Book delivered by venue B in the C3 failing input. -/
def c3BookB : Orderbook :=
  { exchange := "paradex", symbol := "ETH", bids := [⟨101, 1, 1⟩],
    asks := [⟨102, 1, 1⟩] }

/-- The state properties preserved by every manager operation: nonnegative
executed amount, agreement between `executed_amount` and the recorded
execution log, and `COMPLETED` only at or beyond the active target. -/
def ManagerInv (m : SmartExecutionManager) : Prop :=
  0 ≤ m.executed_amount
  ∧ m.executed_amount = m.executions.sum
  ∧ (m.state = .completed → m.active_target ≤ m.executed_amount)

/-- Cached books for the C2 witness. -/
def c2BookA : Orderbook :=
  { exchange := "A", symbol := "S", bids := [⟨99, 1, 1⟩], asks := [⟨100, 1, 1⟩] }

/-- Second cached book for the C2 witness. -/
def c2BookB : Orderbook :=
  { exchange := "B", symbol := "S", bids := [⟨101, 1, 1⟩], asks := [⟨102, 1, 1⟩] }

/-- Concrete bot with both orderbooks cached, instantiating C2. -/
def c2Bot : SingleBot :=
  { config :=
      { id := "b2"
        symbol := "S"
        exchange_a := "A"
        exchange_b := "B" }
    orderbooks := { exchange_a := some c2BookA, exchange_b := some c2BookB }
    analyzer := {}
    execution_manager := { analyzer := some {} } }

/-- Swap of the buy-side and sell-side fields of an opportunity, the relation
under which the claimed symmetry is stated. -/
def swapOpp (o : SpreadOpportunity) : SpreadOpportunity :=
  { o with
    buy_exchange := o.sell_exchange
    sell_exchange := o.buy_exchange
    buy_price := o.sell_price
    sell_price := o.buy_price
    buy_slippage_pct := o.sell_slippage_pct
    sell_slippage_pct := o.buy_slippage_pct
    buy_ob_imbalance := o.sell_ob_imbalance
    sell_ob_imbalance := o.buy_ob_imbalance
    buy_available_liquidity := o.sell_available_liquidity
    sell_available_liquidity := o.buy_available_liquidity
    buy_latency_ms := o.sell_latency_ms
    sell_latency_ms := o.buy_latency_ms }

/-- First book of the C7 tie counterexample: identical ladders on both venues. -/
def c7BookA : Orderbook :=
  { exchange := "A", symbol := "S", bids := [⟨99, 1, 1⟩], asks := [⟨100, 1, 1⟩] }

/-- Second book of the C7 tie counterexample. -/
def c7BookB : Orderbook :=
  { exchange := "B", symbol := "S", bids := [⟨99, 1, 1⟩], asks := [⟨100, 1, 1⟩] }

/-- Books with distinct net spreads for the C7 witness. -/
def c7wBookB : Orderbook :=
  { exchange := "B", symbol := "S", bids := [⟨102, 1, 1⟩], asks := [⟨103, 1, 1⟩] }

/-- Two-level book used for the C6 witness. -/
def c6Book : Orderbook :=
  { exchange := "A", symbol := "S"
    bids := [⟨99, 1, 1⟩, ⟨98, 2, 1⟩]
    asks := [⟨100, 1, 1⟩, ⟨101, 2, 1⟩] }

/-! Helper lemmas about the entry intensity ramp. -/

lemma intensity_eq (m : SmartExecutionManager) (cfg : EntryConfig)
    (hcfg : m.entry_config = some cfg) (s : ℚ) :
    m.calculate_entry_intensity s =
      if s ≤ cfg.entry_start_pct then 0
      else if cfg.entry_full_pct ≤ s then 1
      else 0.1 + 0.9 * ((s - cfg.entry_start_pct) /
        (cfg.entry_full_pct - cfg.entry_start_pct)) := by
  simp only [SmartExecutionManager.calculate_entry_intensity, hcfg]

lemma intensity_bounds (m : SmartExecutionManager) (cfg : EntryConfig)
    (hcfg : m.entry_config = some cfg)
    (hsf : cfg.entry_start_pct ≤ cfg.entry_full_pct) (s : ℚ) :
    0 ≤ m.calculate_entry_intensity s ∧ m.calculate_entry_intensity s ≤ 1 := by
  rw [intensity_eq m cfg hcfg]
  split_ifs with h1 h2
  · norm_num
  · norm_num
  · have hlt1 : cfg.entry_start_pct < s := not_le.mp h1
    have hlt2 : s < cfg.entry_full_pct := not_le.mp h2
    have hd : 0 < cfg.entry_full_pct - cfg.entry_start_pct := by linarith
    have ht0 : 0 ≤ (s - cfg.entry_start_pct) /
        (cfg.entry_full_pct - cfg.entry_start_pct) :=
      le_of_lt (div_pos (by linarith) hd)
    have ht1 : (s - cfg.entry_start_pct) /
        (cfg.entry_full_pct - cfg.entry_start_pct) < 1 :=
      (div_lt_one hd).mpr (by linarith)
    constructor
    · nlinarith
    · nlinarith

lemma intensity_mono (m : SmartExecutionManager) (cfg : EntryConfig)
    (hcfg : m.entry_config = some cfg)
    (hsf : cfg.entry_start_pct ≤ cfg.entry_full_pct)
    (s1 s2 : ℚ) (h12 : s1 ≤ s2) :
    m.calculate_entry_intensity s1 ≤ m.calculate_entry_intensity s2 := by
  by_cases c1 : s1 ≤ cfg.entry_start_pct
  · rw [intensity_eq m cfg hcfg s1, if_pos c1]
    exact (intensity_bounds m cfg hcfg hsf s2).1
  · by_cases c2 : cfg.entry_full_pct ≤ s2
    · rw [intensity_eq m cfg hcfg s2, if_neg (not_le.mpr (by linarith)), if_pos c2]
      exact (intensity_bounds m cfg hcfg hsf s1).2
    · have hs1 : cfg.entry_start_pct < s1 := not_le.mp c1
      have hs2 : s2 < cfg.entry_full_pct := not_le.mp c2
      have hd : 0 < cfg.entry_full_pct - cfg.entry_start_pct := by linarith
      rw [intensity_eq m cfg hcfg s1, if_neg c1, if_neg (not_le.mpr (by linarith)),
        intensity_eq m cfg hcfg s2, if_neg (not_le.mpr (by linarith)), if_neg c2]
      have ht : (s1 - cfg.entry_start_pct) / (cfg.entry_full_pct - cfg.entry_start_pct)
          ≤ (s2 - cfg.entry_start_pct) / (cfg.entry_full_pct - cfg.entry_start_pct) := by
        gcongr
      nlinarith

/-- C8 (amended): for an entry configuration with
`0 < entry_start_pct ≤ entry_full_pct` the entry intensity lies in `[0, 1]`,
equals `0` for spread at or below `entry_start_pct` (that branch takes
precedence), equals `1` for spread at or above `entry_full_pct` provided
`entry_start_pct < entry_full_pct`, equals `0.1 + 0.9·(spread−start)/(full−start)`
strictly in between, and is monotone non-decreasing in the spread. -/
theorem c8_intensity_ramp (m : SmartExecutionManager) (cfg : EntryConfig)
    (s1 s2 : ℚ) (hcfg : m.entry_config = some cfg)
    (h0 : 0 < cfg.entry_start_pct)
    (hsf : cfg.entry_start_pct ≤ cfg.entry_full_pct) (h12 : s1 ≤ s2) :
    (0 ≤ m.calculate_entry_intensity s1 ∧ m.calculate_entry_intensity s1 ≤ 1)
    ∧ (s1 ≤ cfg.entry_start_pct → m.calculate_entry_intensity s1 = 0)
    ∧ (cfg.entry_start_pct < cfg.entry_full_pct → cfg.entry_full_pct ≤ s1 →
        m.calculate_entry_intensity s1 = 1)
    ∧ (cfg.entry_start_pct < s1 → s1 < cfg.entry_full_pct →
        m.calculate_entry_intensity s1 =
          0.1 + 0.9 * ((s1 - cfg.entry_start_pct) /
            (cfg.entry_full_pct - cfg.entry_start_pct)))
    ∧ m.calculate_entry_intensity s1 ≤ m.calculate_entry_intensity s2 := by
  refine ⟨intensity_bounds m cfg hcfg hsf s1, ?_, ?_, ?_,
    intensity_mono m cfg hcfg hsf s1 s2 h12⟩
  · intro h
    rw [intensity_eq m cfg hcfg s1, if_pos h]
  · intro hlt h
    rw [intensity_eq m cfg hcfg s1, if_neg (not_le.mpr (by linarith)), if_pos h]
  · intro ha hb
    rw [intensity_eq m cfg hcfg s1, if_neg (not_le.mpr (by linarith)), if_neg (not_le.mpr (by linarith))]

/-- C8 witness: the amended theorem applied at a concrete configuration and
spreads, with every hypothesis discharged by evaluation. -/
theorem c8_witness :
    (({ entry_config := some {} } : SmartExecutionManager).calculate_entry_intensity
        0.75 = 0.55)
    ∧ ({ entry_config := some {} } : SmartExecutionManager).calculate_entry_intensity
        0.75 ≤ ({ entry_config := some {} } : SmartExecutionManager).calculate_entry_intensity 1.2 := by
  constructor
  · have h := (c8_intensity_ramp ({ entry_config := some {} }) {} 0.75 1.2 rfl
      (by with_unfolding_all decide) (by with_unfolding_all decide)
      (by with_unfolding_all decide)).2.2.2.1
      (by with_unfolding_all decide) (by with_unfolding_all decide)
    rw [h]; with_unfolding_all decide
  · exact (c8_intensity_ramp ({ entry_config := some {} }) {} 0.75 1.2 rfl
      (by with_unfolding_all decide) (by with_unfolding_all decide)
      (by with_unfolding_all decide)).2.2.2.2

/-- C8 counterexample: with `entry_start_pct = entry_full_pct = 0.5` (allowed by
the claimed hypothesis `0 < entry_start_pct ≤ entry_full_pct`) and spread
exactly `0.5`, the spread is at or above `entry_full_pct` yet the intensity is
`0`, not `1`: the at-or-below-start branch of the code wins. -/
theorem c8_counterexample :
    (0 : ℚ) < 0.5 ∧ (0.5 : ℚ) ≤ 0.5 ∧ (0.5 : ℚ) ≥ 0.5
    ∧ ({ entry_config :=
          some { entry_start_pct := 0.5, entry_full_pct := 0.5 } } :
        SmartExecutionManager).calculate_entry_intensity 0.5 = 0
    ∧ ({ entry_config :=
          some { entry_start_pct := 0.5, entry_full_pct := 0.5 } } :
        SmartExecutionManager).calculate_entry_intensity 0.5 ≠ 1 := by
  with_unfolding_all decide

/-- C9: `update_entry_config` (and `SignalValidator.update_config` itself)
changes only the validator's `min_validity_ms`, leaving `valid_since` and the
sample ring untouched, so a signal already valid under the old configuration
stays continuously valid across the hot reload whenever it satisfies the new
duration. -/
theorem c9_update_config_frame (m : SmartExecutionManager) (cfg : EntryConfig)
    (v : SignalValidator) (n now_ms t : Int)
    (hsince : m.signal_validator.valid_since = some t)
    (hdwell : cfg.min_validity_ms ≤ now_ms - t) :
    ((v.update_config n).valid_since = v.valid_since
      ∧ (v.update_config n).samples = v.samples
      ∧ (v.update_config n).min_validity_ms = n)
    ∧ ((m.update_entry_config cfg).signal_validator.valid_since
          = m.signal_validator.valid_since
      ∧ (m.update_entry_config cfg).signal_validator.samples
          = m.signal_validator.samples
      ∧ (m.update_entry_config cfg).signal_validator.min_validity_ms
          = cfg.min_validity_ms)
    ∧ (m.update_entry_config cfg).signal_validator.is_valid now_ms = true := by
  refine ⟨⟨rfl, rfl, rfl⟩, ⟨rfl, rfl, rfl⟩, ?_⟩
  simp only [SmartExecutionManager.update_entry_config,
    SignalValidator.update_config, SignalValidator.is_valid, hsince]
  simpa using hdwell

/-- C9 witness: the frame theorem applied to a concrete armed validator and a
hot reload that shortens the duration. -/
theorem c9_witness :
    (({ signal_validator := { min_validity_ms := 100, valid_since := some 0 } } :
        SmartExecutionManager).signal_validator.valid_since = some 0)
    ∧ (({ signal_validator := { min_validity_ms := 100, valid_since := some 0 } } :
        SmartExecutionManager).update_entry_config
          { min_validity_ms := 50 }).signal_validator.is_valid 80 = true := by
  refine ⟨rfl, ?_⟩
  exact (c9_update_config_frame
    { signal_validator := { min_validity_ms := 100, valid_since := some 0 } }
    { min_validity_ms := 50 } {} 7 80 0 rfl (by with_unfolding_all decide)).2.2

/-- C5 counterexample: an orderbook with empty bids and one ask level reports
`imbalance = -1` and `best_ask = 100`, so not every derived quantity is `0` as
the claim states. -/
theorem c5_counterexample :
    (({ exchange := "A", symbol := "S", bids := [], asks := [⟨100, 5, 1⟩] } :
        Orderbook).bids = [])
    ∧ ({ exchange := "A", symbol := "S", bids := [], asks := [⟨100, 5, 1⟩] } :
        Orderbook).imbalance = -1
    ∧ ({ exchange := "A", symbol := "S", bids := [], asks := [⟨100, 5, 1⟩] } :
        Orderbook).best_ask = 100
    ∧ ¬(({ exchange := "A", symbol := "S", bids := [], asks := [⟨100, 5, 1⟩] } :
        Orderbook).imbalance = 0) := by
  with_unfolding_all decide

/-- C5 (amended): with at least one empty side, the both-side quantities `mid`,
`spread` and `spread_bps` are reported as `0`; `best_bid`/`best_ask` and
`bid_depth`/`ask_depth` are `0` exactly for the empty side itself; and
`imbalance` is `0` only when the total depth is zero, being `-1` for empty bids
with nonzero ask depth and `+1` for empty asks with nonzero bid depth. -/
theorem c5_empty_side_metrics (ob : Orderbook)
    (h : ob.bids = [] ∨ ob.asks = []) :
    ob.mid_price = 0 ∧ ob.spread = 0 ∧ ob.spread_bps = 0
    ∧ (ob.bids = [] → ob.best_bid = 0 ∧ ob.bid_depth = 0
        ∧ ob.imbalance = if ob.ask_depth = 0 then 0 else -1)
    ∧ (ob.asks = [] → ob.best_ask = 0 ∧ ob.ask_depth = 0
        ∧ ob.imbalance = if ob.bid_depth = 0 then 0 else 1) := by
  have hzero : ob.best_bid = 0 ∨ ob.best_ask = 0 := by
    rcases h with h | h
    · exact Or.inl (by simp [Orderbook.best_bid, h])
    · exact Or.inr (by simp [Orderbook.best_ask, h])
  have hmid : ob.mid_price = 0 := by
    rw [Orderbook.mid_price, if_neg]
    rcases hzero with h' | h' <;> simp [h']
  have hspread : ob.spread = 0 := by
    rw [Orderbook.spread, if_neg]
    rcases hzero with h' | h' <;> simp [h']
  refine ⟨hmid, hspread, ?_, ?_, ?_⟩
  · rw [Orderbook.spread_bps, if_neg (by simp [hmid])]
  · intro hb
    have hdepth : ob.bid_depth = 0 := by simp [Orderbook.bid_depth, hb]
    refine ⟨by simp [Orderbook.best_bid, hb], hdepth, ?_⟩
    rw [Orderbook.imbalance]
    by_cases ha : ob.ask_depth = 0
    · simp [hdepth, ha]
    · rw [hdepth]
      simp only [zero_add, zero_sub, if_neg ha]
      rw [neg_div, div_self ha]
  · intro hb
    have hdepth : ob.ask_depth = 0 := by simp [Orderbook.ask_depth, hb]
    refine ⟨by simp [Orderbook.best_ask, hb], hdepth, ?_⟩
    rw [Orderbook.imbalance]
    by_cases ha : ob.bid_depth = 0
    · simp [hdepth, ha]
    · rw [hdepth]
      simp only [add_zero, sub_zero, if_neg ha]
      rw [div_self ha]

/-- C5 witness: the amended theorem evaluated on the empty-bid book of the
counterexample. -/
theorem c5_witness :
    (({ exchange := "A", symbol := "S", bids := [], asks := [⟨100, 5, 1⟩] } :
        Orderbook).bids = [])
    ∧ ({ exchange := "A", symbol := "S", bids := [], asks := [⟨100, 5, 1⟩] } :
        Orderbook).mid_price = 0
    ∧ ({ exchange := "A", symbol := "S", bids := [], asks := [⟨100, 5, 1⟩] } :
        Orderbook).imbalance =
      (if ({ exchange := "A", symbol := "S", bids := [], asks := [⟨100, 5, 1⟩] } :
        Orderbook).ask_depth = 0 then 0 else -1) := by
  have h := c5_empty_side_metrics
    { exchange := "A", symbol := "S", bids := [], asks := [⟨100, 5, 1⟩] }
    (Or.inl rfl)
  exact ⟨rfl, h.1, (h.2.2.2.1 rfl).2.2⟩

/-! Helper lemmas about the safe-quantity bisection. -/

lemma slippageForSide_zero (ob : Orderbook) (side : String) :
    slippageForSide ob side 0 = 0 := by
  simp [slippageForSide, Orderbook.estimate_buy_slippage,
    Orderbook.estimate_sell_slippage]

lemma safeQtyGo_le (ob : Orderbook) (side : String) (bps : ℚ) :
    ∀ (n : Nat) (lo hi : ℚ), slippageForSide ob side lo * 100 ≤ bps →
      slippageForSide ob side (safeQtyGo ob side bps n lo hi) * 100 ≤ bps := by
  intro n
  induction n with
  | zero => intro lo hi h; simpa [safeQtyGo] using h
  | succ k ih =>
      intro lo hi h
      simp only [safeQtyGo]
      split_ifs with hmid
      · exact ih _ _ hmid
      · exact ih _ _ h

lemma maxSafeQty_slippage (an : OrderbookAnalyzer) (ob : Orderbook)
    (side : String) (bps : ℚ) (hbps : 0 ≤ bps) :
    slippageForSide ob side (an.calculate_max_safe_qty ob side bps) * 100 ≤ bps := by
  have h0 : slippageForSide ob side 0 * 100 ≤ bps := by
    simpa [slippageForSide_zero] using hbps
  show slippageForSide ob side
      (if (if side = "buy" then ob.ask_depth else ob.bid_depth) ≤ 0 then 0
        else safeQtyGo ob side bps 10 0
          (if side = "buy" then ob.ask_depth else ob.bid_depth)) * 100 ≤ bps
  by_cases h : (if side = "buy" then ob.ask_depth else ob.bid_depth) ≤ 0
  · rw [if_pos h]; exact h0
  · rw [if_neg h]; exact safeQtyGo_le ob side bps 10 0 _ h0

lemma calculate_next_slice_safe_qtys (m : SmartExecutionManager)
    (ob_a ob_b : Orderbook) (pct : ℚ) (hrem : 0 < m.get_remaining) :
    (m.calculate_next_slice ob_a ob_b "buy" pct).safe_qty_a
        = m.calculate_safe_qty ob_a "buy" (pct * 100)
    ∧ (m.calculate_next_slice ob_a ob_b "buy" pct).safe_qty_b
        = m.calculate_safe_qty ob_b "sell" (pct * 100) := by
  constructor <;>
    simp [SmartExecutionManager.calculate_next_slice, hrem.not_le, apply_ite]

/-- C1: with the analyzer installed and a positive slippage bound, the per-side
safe quantity used by `calculate_next_slice` is exactly the analyzer's
`calculate_max_safe_qty` bisection (buy leg against the asks, sell leg against
the bids), and the size the bisection returns indeed has walk-the-book slippage
at most `max_slippage_pct` (the bisection keeps its lower bound inside the
slippage-only predicate). -/
theorem c1_safe_qty_is_bisection (m : SmartExecutionManager)
    (an : OrderbookAnalyzer) (ob_a ob_b : Orderbook) (pct : ℚ)
    (han : m.analyzer = some an) (hpct : 0 < pct)
    (hrem : 0 < m.get_remaining) :
    (m.calculate_safe_qty ob_a "buy" (pct * 100)
        = an.calculate_max_safe_qty ob_a "buy" (pct * 100)
      ∧ m.calculate_safe_qty ob_b "sell" (pct * 100)
        = an.calculate_max_safe_qty ob_b "sell" (pct * 100))
    ∧ ob_a.estimate_buy_slippage
        (an.calculate_max_safe_qty ob_a "buy" (pct * 100)) ≤ pct
    ∧ ob_b.estimate_sell_slippage
        (an.calculate_max_safe_qty ob_b "sell" (pct * 100)) ≤ pct
    ∧ (m.calculate_next_slice ob_a ob_b "buy" pct).safe_qty_a
        = an.calculate_max_safe_qty ob_a "buy" (pct * 100)
    ∧ (m.calculate_next_slice ob_a ob_b "buy" pct).safe_qty_b
        = an.calculate_max_safe_qty ob_b "sell" (pct * 100) := by
  have heqa : m.calculate_safe_qty ob_a "buy" (pct * 100)
      = an.calculate_max_safe_qty ob_a "buy" (pct * 100) := by
    simp [SmartExecutionManager.calculate_safe_qty, han]
  have heqb : m.calculate_safe_qty ob_b "sell" (pct * 100)
      = an.calculate_max_safe_qty ob_b "sell" (pct * 100) := by
    simp [SmartExecutionManager.calculate_safe_qty, han]
  have hbps : (0 : ℚ) ≤ pct * 100 := by positivity
  have hbuy := maxSafeQty_slippage an ob_a "buy" (pct * 100) hbps
  have hsell := maxSafeQty_slippage an ob_b "sell" (pct * 100) hbps
  rw [show slippageForSide ob_a "buy" = ob_a.estimate_buy_slippage from by
    funext q; simp [slippageForSide]] at hbuy
  rw [show slippageForSide ob_b "sell" = ob_b.estimate_sell_slippage from by
    funext q; simp [slippageForSide]] at hsell
  have h100 : (0 : ℚ) < 100 := by norm_num
  refine ⟨⟨heqa, heqb⟩, ?_, ?_, ?_, ?_⟩
  · exact le_of_mul_le_mul_right (by linarith) h100
  · exact le_of_mul_le_mul_right (by linarith) h100
  · rw [(calculate_next_slice_safe_qtys m ob_a ob_b pct hrem).1, heqa]
  · rw [(calculate_next_slice_safe_qtys m ob_a ob_b pct hrem).2, heqb]

/-- C1 witness: the theorem applied to a concrete manager, analyzer, books and
bound, with each hypothesis discharged by evaluation. -/
theorem c1_witness :
    (({ analyzer := some {}, mode := .entry, target_amount := 5 } :
        SmartExecutionManager).analyzer = some {})
    ∧ (0 : ℚ) < 0.05
    ∧ (0 : ℚ) < ({ analyzer := some {}, mode := .entry, target_amount := 5 } :
        SmartExecutionManager).get_remaining
    ∧ ({ exchange := "A", symbol := "S", bids := [⟨99, 10, 1⟩],
          asks := [⟨100, 10, 1⟩] } : Orderbook).estimate_buy_slippage
        (({} : OrderbookAnalyzer).calculate_max_safe_qty
          { exchange := "A", symbol := "S", bids := [⟨99, 10, 1⟩],
            asks := [⟨100, 10, 1⟩] } "buy" (0.05 * 100)) ≤ 0.05 := by
  refine ⟨rfl, by with_unfolding_all decide, by with_unfolding_all decide, ?_⟩
  exact (c1_safe_qty_is_bisection
    { analyzer := some {}, mode := .entry, target_amount := 5 } {}
    { exchange := "A", symbol := "S", bids := [⟨99, 10, 1⟩], asks := [⟨100, 10, 1⟩] }
    { exchange := "B", symbol := "S", bids := [⟨101, 10, 1⟩], asks := [⟨102, 10, 1⟩] }
    0.05 rfl (by with_unfolding_all decide) (by with_unfolding_all decide)).2.1

/-- C10: in ENTRY mode, when the spread equals `entry_start_pct` exactly, has
dwelt at least `min_validity_ms`, `can_fire` holds and both safe quantities are
positive, `update` returns a slice with `should_execute = true` but
`size = 0`: the validator accepts `spread ≥ threshold` while the intensity is
`0` for `spread ≤ entry_start_pct`, and scaling by the intensity zeroes the
firing slice. -/
lemma update_entry_eq (m : SmartExecutionManager) (cfg : EntryConfig)
    (now_ms : Int) (spread : ℚ) (ob_a ob_b : Orderbook)
    (hstate : m.state = .executing) (hmode : m.mode = .entry)
    (hcfg : m.entry_config = some cfg)
    (hrem : ¬ m.get_remaining ≤ 0) (hfire : m.can_fire now_ms = true) :
    m.update now_ms spread ob_a ob_b =
      (let v := m.signal_validator.record spread cfg.entry_start_pct now_ms
      let m1 : SmartExecutionManager := { m with signal_validator := v }
      if ¬ v.is_valid now_ms then (m1, none)
      else
        let result := m1.calculate_next_slice ob_a ob_b "buy" cfg.max_slippage_pct
        (m1, some (if result.should_execute then
            { result with
              size := result.size * m1.calculate_entry_intensity spread }
          else result))) := by
  unfold SmartExecutionManager.update
  rw [if_neg (by simp [hstate]), if_neg hrem, if_neg (by simp [hfire])]
  rw [hmode, hcfg]

/-- C10: in ENTRY mode, when the spread equals `entry_start_pct` exactly, has
dwelt at least `min_validity_ms`, `can_fire` holds and both safe quantities are
positive, `update` returns a slice with `should_execute = true` but
`size = 0`: the validator accepts `spread ≥ threshold` while the intensity is
`0` for `spread ≤ entry_start_pct`, and scaling by the intensity zeroes the
firing slice. -/
theorem c10_zero_size_firing_slice
    (m : SmartExecutionManager) (cfg : EntryConfig) (ob_a ob_b : Orderbook)
    (now_ms t : Int)
    (hstate : m.state = .executing) (hmode : m.mode = .entry)
    (hcfg : m.entry_config = some cfg) (hrem : 0 < m.get_remaining)
    (hfire : m.can_fire now_ms = true)
    (hsince : m.signal_validator.valid_since = some t)
    (hdwell : m.signal_validator.min_validity_ms ≤ now_ms - t)
    (hsa : 0 < m.calculate_safe_qty ob_a "buy" (cfg.max_slippage_pct * 100))
    (hsb : 0 < m.calculate_safe_qty ob_b "sell" (cfg.max_slippage_pct * 100)) :
    ∃ r : SliceResult,
      (m.update now_ms cfg.entry_start_pct ob_a ob_b).2 = some r
      ∧ r.should_execute = true ∧ r.size = 0 := by
  have hrem' : ¬ m.get_remaining ≤ 0 := not_le.mpr hrem
  rw [update_entry_eq m cfg now_ms cfg.entry_start_pct ob_a ob_b hstate hmode
    hcfg hrem' hfire]
  set v := m.signal_validator.record cfg.entry_start_pct cfg.entry_start_pct now_ms
    with hvdef
  have hvsince : v.valid_since = some t := by
    rw [hvdef]
    simp [SignalValidator.record, hsince]
  have hvalid : v.is_valid now_ms = true := by
    have hvmin : v.min_validity_ms = m.signal_validator.min_validity_ms := by
      rw [hvdef]; rfl
    simp [SignalValidator.is_valid, hvsince, hvmin]
    exact hdwell
  set m1 : SmartExecutionManager := { m with signal_validator := v } with hm1
  have hcfg1 : m1.entry_config = some cfg := hcfg
  have hint : m1.calculate_entry_intensity cfg.entry_start_pct = 0 := by
    rw [intensity_eq _ cfg hcfg1, if_pos (le_refl _)]
  have hrem1 : ¬ m1.get_remaining ≤ 0 := hrem'
  have hslicepos : ¬ min (min
      (m1.calculate_safe_qty ob_a "buy" (cfg.max_slippage_pct * 100))
      (m1.calculate_safe_qty ob_b "sell" (cfg.max_slippage_pct * 100)))
      m1.get_remaining ≤ 0 :=
    not_le.mpr (lt_min (lt_min hsa hsb) hrem)
  have hexec : (m1.calculate_next_slice ob_a ob_b "buy"
      cfg.max_slippage_pct).should_execute = true := by
    simp [SmartExecutionManager.calculate_next_slice, hrem1, hslicepos]
  simp only [hvalid, not_true_eq_false, if_false, ite_false, hexec, if_true]
  refine ⟨_, rfl, rfl, ?_⟩
  show _ * m1.calculate_entry_intensity cfg.entry_start_pct = 0
  rw [hint, mul_zero]

/-- C10 witness: the theorem applied at a concrete armed manager, with the
spread sitting exactly on the default 0.5% entry threshold. -/
theorem c10_witness :
    (0 < c10Manager.get_remaining
      ∧ c10Manager.can_fire 100 = true
      ∧ 0 < c10Manager.calculate_safe_qty c10BookA "buy"
          (({} : EntryConfig).max_slippage_pct * 100))
    ∧ ∃ r : SliceResult,
        (c10Manager.update 100 (({} : EntryConfig).entry_start_pct)
          c10BookA c10BookB).2 = some r
        ∧ r.should_execute = true ∧ r.size = 0 := by
  refine ⟨⟨by with_unfolding_all decide, rfl, by with_unfolding_all decide⟩, ?_⟩
  exact c10_zero_size_firing_slice c10Manager {} c10BookA c10BookB 100 0 rfl rfl
    rfl (by with_unfolding_all decide) rfl rfl (by with_unfolding_all decide)
    (by with_unfolding_all decide) (by with_unfolding_all decide)

/-- Any supervisor state with both orderbooks cached fails its analysis step on
the missing `max_position_size` attribute. -/
lemma analyze_opportunity_error (bot : SingleBot) (ob_a ob_b : Orderbook)
    (now_ms : Int) (ha : bot.orderbooks.exchange_a = some ob_a)
    (hb : bot.orderbooks.exchange_b = some ob_b) :
    bot.analyze_opportunity now_ms = .error "AttributeError" := by
  unfold SingleBot.analyze_opportunity
  rw [ha, hb]
  have hattr : bot.config.max_position_size? = none := by
    simp [BotConfig.max_position_size?, botConfigFields]
  simp [hattr]

/-- C2: `BotConfig` has no field `max_position_size`, so whenever both
orderbooks are cached the analysis step hits the `AttributeError` branch; on a
polling tick with both books fetched, `poll` catches it, increments
`stats.errors`, and records no opportunity, spread statistic or trade, leaving
the execution manager untouched. -/
theorem c2_missing_max_position_size (bot : SingleBot)
    (ob_a ob_b fa fb : Orderbook) (lat : ℚ) (now_ms : Int)
    (ha : bot.orderbooks.exchange_a = some ob_a)
    (hb : bot.orderbooks.exchange_b = some ob_b) :
    ("max_position_size" ∈ botConfigFields ↔ False)
    ∧ bot.analyze_opportunity now_ms = .error "AttributeError"
    ∧ (bot.poll (some fa) (some fb) lat now_ms).2 = [.error_caught]
    ∧ (bot.poll (some fa) (some fb) lat now_ms).1.stats.errors
        = bot.stats.errors + 1
    ∧ (bot.poll (some fa) (some fb) lat now_ms).1.stats.trades = bot.stats.trades
    ∧ (bot.poll (some fa) (some fb) lat now_ms).1.stats.opportunities
        = bot.stats.opportunities
    ∧ (bot.poll (some fa) (some fb) lat now_ms).1.stats.profitable_opportunities
        = bot.stats.profitable_opportunities
    ∧ (bot.poll (some fa) (some fb) lat now_ms).1.stats.last_opportunity
        = bot.stats.last_opportunity
    ∧ (bot.poll (some fa) (some fb) lat now_ms).1.stats.last_spread
        = bot.stats.last_spread
    ∧ (bot.poll (some fa) (some fb) lat now_ms).1.stats.avg_spread
        = bot.stats.avg_spread
    ∧ (bot.poll (some fa) (some fb) lat now_ms).1.stats.best_spread_seen
        = bot.stats.best_spread_seen
    ∧ (bot.poll (some fa) (some fb) lat now_ms).1.execution_manager
        = bot.execution_manager := by
  refine ⟨by simp [botConfigFields],
    analyze_opportunity_error bot ob_a ob_b now_ms ha hb, ?_⟩
  unfold SingleBot.poll
  dsimp only
  rw [analyze_opportunity_error _ fa fb now_ms rfl rfl]
  simp [HFTStats.record_latency]

/-- C3: evaluating one polling tick of the supervisor at the failing input:
both books are obtained, yet the tick never invokes the execution manager's
`update` (no such call exists in `SingleBot`), produces no dry-run trade, and
instead lands in the error branch — `trades` stays `0`, `errors` becomes `1`,
and the manager state is unchanged. -/
theorem c3_poll_never_calls_manager_update :
    BotEvent.manager_update_called ∉ (c3Bot.poll (some c3BookA) (some c3BookB) 10 0).2
    ∧ BotEvent.dry_run_trade ∉ (c3Bot.poll (some c3BookA) (some c3BookB) 10 0).2
    ∧ BotEvent.analyzer_fed ∉ (c3Bot.poll (some c3BookA) (some c3BookB) 10 0).2
    ∧ (c3Bot.poll (some c3BookA) (some c3BookB) 10 0).2 = [.error_caught]
    ∧ (c3Bot.poll (some c3BookA) (some c3BookB) 10 0).1.stats.trades = 0
    ∧ (c3Bot.poll (some c3BookA) (some c3BookB) 10 0).1.stats.errors = 1
    ∧ (c3Bot.poll (some c3BookA) (some c3BookB) 10 0).1.execution_manager
        = c3Bot.execution_manager := by
  unfold SingleBot.poll
  dsimp only
  rw [analyze_opportunity_error _ c3BookA c3BookB 0 rfl rfl]
  exact ⟨by decide, by decide, by decide, rfl, rfl, rfl, rfl⟩

lemma completed_target_le (m' : SmartExecutionManager)
    (h0 : 0 ≤ m'.executed_amount) (hr : m'.get_remaining ≤ 0) :
    m'.active_target ≤ m'.executed_amount := by
  unfold SmartExecutionManager.active_target
  unfold SmartExecutionManager.get_remaining at hr
  revert hr
  cases m'.mode <;> dsimp only <;> intro hr <;> linarith

lemma inv_of_same_fields (m m' : SmartExecutionManager)
    (hexec : m'.executed_amount = m.executed_amount)
    (hexecs : m'.executions = m.executions)
    (hstate : m'.state = m.state) (hmode : m'.mode = m.mode)
    (htar : m'.target_amount = m.target_amount)
    (hext : m'.exit_target = m.exit_target)
    (h : ManagerInv m) : ManagerInv m' := by
  obtain ⟨h1, h2, h3⟩ := h
  refine ⟨hexec ▸ h1, by rw [hexec, hexecs, h2], fun hc => ?_⟩
  rw [hstate] at hc
  have hle := h3 hc
  unfold SmartExecutionManager.active_target at hle ⊢
  rw [hmode, hexec, htar, hext]
  exact hle

lemma update_fst_inv (m : SmartExecutionManager) (now_ms : Int) (spread : ℚ)
    (ob_a ob_b : Orderbook) (h : ManagerInv m) :
    ManagerInv (m.update now_ms spread ob_a ob_b).1 := by
  obtain ⟨h1, h2, h3⟩ := h
  unfold SmartExecutionManager.update
  split_ifs with hs hr hf
  · exact ⟨h1, h2, h3⟩
  · refine ⟨h1, h2, fun _ => ?_⟩
    unfold SmartExecutionManager.get_remaining at hr
    unfold SmartExecutionManager.active_target
    dsimp only
    cases hm : m.mode <;> rw [hm] at hr <;> dsimp only at hr ⊢ <;> linarith
  · cases hm : m.mode <;> cases hc : m.entry_config <;>
      cases he : m.exit_config <;> simp only [hm, hc, he] <;> (try split_ifs) <;>
      exact inv_of_same_fields m _ rfl rfl rfl (by rw [hm]) rfl rfl ⟨h1, h2, h3⟩
  · exact ⟨h1, h2, h3⟩

lemma managerStep_inv (m : SmartExecutionManager) (op : ManagerOp)
    (h : ManagerInv m) : ManagerInv (managerStep m op) := by
  obtain ⟨h1, h2, h3⟩ := h
  cases op with
  | start_entry config =>
      exact ⟨le_refl 0, rfl, by
        intro hcc
        exact absurd hcc (by simp [managerStep, SmartExecutionManager.start_entry])⟩
  | start_exit position_size config =>
      exact ⟨le_refl 0, rfl, by
        intro hcc
        exact absurd hcc (by simp [managerStep, SmartExecutionManager.start_exit])⟩
  | update_entry_config config => exact ⟨h1, h2, h3⟩
  | reset => exact ⟨le_refl 0, rfl, by
      intro hcc
      exact absurd hcc (by simp [managerStep, SmartExecutionManager.reset])⟩
  | tick now_ms spread ob_a ob_b => exact update_fst_inv m now_ms spread ob_a ob_b ⟨h1, h2, h3⟩
  | record_execution now_ms qty success =>
      show ManagerInv (m.record_execution qty success now_ms)
      unfold SmartExecutionManager.record_execution
      by_cases hcond : success = true ∧ 0 < qty
      · rw [if_pos hcond]
        obtain ⟨hs, hq⟩ := hcond
        have h1' : (0 : ℚ) ≤ m.executed_amount + qty := by linarith
        have h2' : m.executed_amount + qty = (m.executions ++ [qty]).sum := by
          rw [List.sum_append, h2]; simp
        dsimp only
        split
        · rename_i hr
          exact ⟨h1', h2', fun _ => completed_target_le _ h1' hr⟩
        · rename_i hr
          refine ⟨h1', h2', fun hcc => ?_⟩
          have hcc' : m.state = .completed := hcc
          have hle := h3 hcc'
          show SmartExecutionManager.active_target m ≤ m.executed_amount + qty
          linarith
      · rw [if_neg hcond]
        exact ⟨h1, h2, h3⟩

lemma runManager_inv (ops : List ManagerOp) :
    ∀ (m : SmartExecutionManager), ManagerInv m → ManagerInv (runManager m ops) := by
  induction ops with
  | nil => intro m h; exact h
  | cons op rest ih => intro m h; exact ih _ (managerStep_inv m op h)

/-- C4 (amended): throughout every operation sequence the executed amount is
nonnegative and equals the sum of the manager's recorded slice quantities
(cleared by `start_entry`/`start_exit`/`reset`), and `COMPLETED` implies the
executed amount is at least the active target — the target may be strictly
exceeded, because `record_execution` adds any successful positive quantity
without capping it at the remaining target. -/
theorem c4_execution_invariants (an : Option OrderbookAnalyzer)
    (ops : List ManagerOp) :
    0 ≤ (runManager { analyzer := an } ops).executed_amount
    ∧ (runManager { analyzer := an } ops).executed_amount
        = (runManager { analyzer := an } ops).executions.sum
    ∧ ((runManager { analyzer := an } ops).state = .completed →
        (runManager { analyzer := an } ops).active_target
          ≤ (runManager { analyzer := an } ops).executed_amount) :=
  runManager_inv ops { analyzer := an } ⟨le_refl 0, rfl, fun _ => le_refl 0⟩

/-- C2 witness: the theorem applied to the concrete bot with both books
cached. -/
theorem c2_witness :
    c2Bot.orderbooks.exchange_a = some c2BookA
    ∧ c2Bot.orderbooks.exchange_b = some c2BookB
    ∧ c2Bot.analyze_opportunity 0 = .error "AttributeError"
    ∧ (c2Bot.poll (some c2BookA) (some c2BookB) 10 0).1.stats.errors
        = c2Bot.stats.errors + 1
    ∧ (c2Bot.poll (some c2BookA) (some c2BookB) 10 0).1.stats.trades
        = c2Bot.stats.trades := by
  have h := c2_missing_max_position_size c2Bot c2BookA c2BookB c2BookA c2BookB
    10 0 rfl rfl
  exact ⟨rfl, rfl, h.2.1, h.2.2.2.1, h.2.2.2.2.1⟩

/-- C4 counterexample: starting an entry with target `1` and recording one
successful slice of `2` yields `executed_amount = 2 > 1 = target` in state
`COMPLETED`, refuting both `executed ≤ target` and
`COMPLETED ⇔ executed = target`. -/
theorem c4_counterexample :
    (runManager {} [ManagerOp.start_entry { target_amount := 1 },
        ManagerOp.record_execution 1000 2 true]).state = .completed
    ∧ (runManager {} [ManagerOp.start_entry { target_amount := 1 },
        ManagerOp.record_execution 1000 2 true]).executed_amount = 2
    ∧ (runManager {} [ManagerOp.start_entry { target_amount := 1 },
        ManagerOp.record_execution 1000 2 true]).active_target = 1
    ∧ ¬((runManager {} [ManagerOp.start_entry { target_amount := 1 },
        ManagerOp.record_execution 1000 2 true]).executed_amount
          ≤ (runManager {} [ManagerOp.start_entry { target_amount := 1 },
            ManagerOp.record_execution 1000 2 true]).active_target
      ∧ ((runManager {} [ManagerOp.start_entry { target_amount := 1 },
          ManagerOp.record_execution 1000 2 true]).state = .completed
        ↔ (runManager {} [ManagerOp.start_entry { target_amount := 1 },
            ManagerOp.record_execution 1000 2 true]).executed_amount
          = (runManager {} [ManagerOp.start_entry { target_amount := 1 },
            ManagerOp.record_execution 1000 2 true]).active_target)) := by
  with_unfolding_all decide

/-- C7 (amended): with the two calls evaluated at the same clock, both return
null exactly when neither direction is populated, and whenever the two
directions have distinct net spreads — or at most one is populated —
`find_best_opportunity (a, b)` and `find_best_opportunity (b, a)` return the
identical opportunity (the direction with the strictly larger net spread); only
an exact net-spread tie makes them differ, each call then returning the
direction that buys on its second argument. -/
theorem c7_opportunity_symmetry (an : OrderbookAnalyzer) (a b : Orderbook)
    (ts : Option ℚ) (now_ms : Int)
    (hne : Option.map SpreadOpportunity.net_spread_after_slippage
          (an.analyze_spread a b ts now_ms)
        ≠ Option.map SpreadOpportunity.net_spread_after_slippage
          (an.analyze_spread b a ts now_ms)
      ∨ an.analyze_spread a b ts now_ms = none
      ∨ an.analyze_spread b a ts now_ms = none) :
    an.find_best_opportunity a b ts now_ms = an.find_best_opportunity b a ts now_ms
    ∧ (an.find_best_opportunity a b ts now_ms = none ↔
        (an.analyze_spread a b ts now_ms = none
          ∧ an.analyze_spread b a ts now_ms = none)) := by
  unfold OrderbookAnalyzer.find_best_opportunity
  rcases h1 : an.analyze_spread a b ts now_ms with _ | o1 <;>
    rcases h2 : an.analyze_spread b a ts now_ms with _ | o2
  · simp
  · simp
  · simp
  · rw [h1, h2] at hne
    have hnet : o1.net_spread_after_slippage ≠ o2.net_spread_after_slippage := by
      rcases hne with h | h | h
      · simpa using h
      · exact absurd h (by simp)
      · exact absurd h (by simp)
    dsimp only
    refine ⟨?_, by split_ifs <;> simp⟩
    rcases lt_trichotomy o1.net_spread_after_slippage o2.net_spread_after_slippage
      with h | h | h
    · rw [if_neg (lt_asymm h), if_pos h]
    · exact absurd h hnet
    · rw [if_pos h, if_neg (lt_asymm h)]

/-- C7 counterexample: with identical ladders on the two venues the two
directions tie on net spread, the two calls return opposite directions
(`a → b` buys on `b`, `b → a` buys on `a`), and the results are not related by
swapping the buy/sell fields either (the swap would also exchange the prices). -/
theorem c7_counterexample :
    Option.map SpreadOpportunity.net_spread_after_slippage
        (({} : OrderbookAnalyzer).analyze_spread c7BookA c7BookB none 0)
      = Option.map SpreadOpportunity.net_spread_after_slippage
        (({} : OrderbookAnalyzer).analyze_spread c7BookB c7BookA none 0)
    ∧ ({} : OrderbookAnalyzer).find_best_opportunity c7BookA c7BookB none 0
      ≠ ({} : OrderbookAnalyzer).find_best_opportunity c7BookB c7BookA none 0
    ∧ ({} : OrderbookAnalyzer).find_best_opportunity c7BookA c7BookB none 0
      ≠ Option.map swapOpp
        (({} : OrderbookAnalyzer).find_best_opportunity c7BookB c7BookA none 0) := by
  with_unfolding_all decide

/-- C7 witness: the amended theorem applied to books whose two directions have
different net spreads. -/
theorem c7_witness :
    (Option.map SpreadOpportunity.net_spread_after_slippage
          (({} : OrderbookAnalyzer).analyze_spread c7BookA c7wBookB none 0)
        ≠ Option.map SpreadOpportunity.net_spread_after_slippage
          (({} : OrderbookAnalyzer).analyze_spread c7wBookB c7BookA none 0))
    ∧ ({} : OrderbookAnalyzer).find_best_opportunity c7BookA c7wBookB none 0
      = ({} : OrderbookAnalyzer).find_best_opportunity c7wBookB c7BookA none 0 := by
  refine ⟨by with_unfolding_all decide, ?_⟩
  exact (c7_opportunity_symmetry {} c7BookA c7wBookB none 0
    (Or.inl (by with_unfolding_all decide))).1

/-! Walk-the-book lemmas for slippage monotonicity (C6).  The ascending
lemmas serve the buy side, the descending mirrors the sell side. -/

lemma walkCost_nonpos (last : ℚ) (L : List PriceLevel) (s : ℚ) (hs : s ≤ 0) :
    walkCost last L s = 0 := by
  cases L with
  | nil => unfold walkCost; rw [if_neg (not_lt.mpr hs)]
  | cons l rest => unfold walkCost; rw [if_pos hs]

lemma walkCost_ge (q : ℚ) (L : List PriceLevel) :
    ∀ (last s : ℚ), q ≤ last → (∀ l ∈ L, q ≤ l.price) → (∀ l ∈ L, 0 ≤ l.size) →
      0 ≤ s → s * q ≤ walkCost last L s := by
  induction L with
  | nil =>
      intro last s hlast _ _ hs
      unfold walkCost
      by_cases h : 0 < s
      · rw [if_pos h]
        exact mul_le_mul_of_nonneg_left hlast hs
      · rw [if_neg h]
        have hs0 : s = 0 := le_antisymm (not_lt.mp h) hs
        simp [hs0]
  | cons l rest ih =>
      intro last s hlast hp hsz hs
      unfold walkCost
      by_cases h : s ≤ 0
      · rw [if_pos h]
        have hs0 : s = 0 := le_antisymm h hs
        simp [hs0]
      · push_neg at h
        rw [if_neg (not_le.mpr h)]
        have hsize : 0 ≤ l.size := hsz l (List.mem_cons_self l rest)
        have hq : q ≤ l.price := hp l (List.mem_cons_self l rest)
        have hf0 : 0 ≤ min s l.size := le_min hs hsize
        have hfle : min s l.size ≤ s := min_le_left s l.size
        have hrest : (s - min s l.size) * q
            ≤ walkCost l.price rest (s - min s l.size) :=
          ih l.price (s - min s l.size) hq
            (fun x hx => hp x (List.mem_cons_of_mem l hx))
            (fun x hx => hsz x (List.mem_cons_of_mem l hx))
            (by linarith)
        have hhead : min s l.size * q ≤ min s l.size * l.price :=
          mul_le_mul_of_nonneg_left hq hf0
        have hsplit : s * q = min s l.size * q + (s - min s l.size) * q := by ring
        linarith

lemma walkCost_le (q : ℚ) (L : List PriceLevel) :
    ∀ (last s : ℚ), last ≤ q → (∀ l ∈ L, l.price ≤ q) → (∀ l ∈ L, 0 ≤ l.size) →
      0 ≤ s → walkCost last L s ≤ s * q := by
  induction L with
  | nil =>
      intro last s hlast _ _ hs
      unfold walkCost
      by_cases h : 0 < s
      · rw [if_pos h]
        exact mul_le_mul_of_nonneg_left hlast hs
      · rw [if_neg h]
        have hs0 : s = 0 := le_antisymm (not_lt.mp h) hs
        simp [hs0]
  | cons l rest ih =>
      intro last s hlast hp hsz hs
      unfold walkCost
      by_cases h : s ≤ 0
      · rw [if_pos h]
        have hs0 : s = 0 := le_antisymm h hs
        simp [hs0]
      · push_neg at h
        rw [if_neg (not_le.mpr h)]
        have hsize : 0 ≤ l.size := hsz l (List.mem_cons_self l rest)
        have hq : l.price ≤ q := hp l (List.mem_cons_self l rest)
        have hf0 : 0 ≤ min s l.size := le_min hs hsize
        have hfle : min s l.size ≤ s := min_le_left s l.size
        have hrest : walkCost l.price rest (s - min s l.size)
            ≤ (s - min s l.size) * q :=
          ih l.price (s - min s l.size) hq
            (fun x hx => hp x (List.mem_cons_of_mem l hx))
            (fun x hx => hsz x (List.mem_cons_of_mem l hx))
            (by linarith)
        have hhead : min s l.size * l.price ≤ min s l.size * q :=
          mul_le_mul_of_nonneg_left hq hf0
        have hsplit : s * q = min s l.size * q + (s - min s l.size) * q := by ring
        linarith

lemma walkCost_cons_ge (a : PriceLevel) (rest : List PriceLevel) (last s : ℚ)
    (hp : ∀ l ∈ rest, a.price ≤ l.price) (hsz : ∀ l ∈ a :: rest, 0 ≤ l.size)
    (hs : 0 ≤ s) :
    s * a.price ≤ walkCost last (a :: rest) s := by
  unfold walkCost
  by_cases h : s ≤ 0
  · rw [if_pos h]
    have hs0 : s = 0 := le_antisymm h hs
    simp [hs0]
  · push_neg at h
    rw [if_neg (not_le.mpr h)]
    have hsize : 0 ≤ a.size := hsz a (List.mem_cons_self a rest)
    have hf0 : 0 ≤ min s a.size := le_min hs hsize
    have hfle : min s a.size ≤ s := min_le_left s a.size
    have hrest : (s - min s a.size) * a.price
        ≤ walkCost a.price rest (s - min s a.size) :=
      walkCost_ge a.price rest a.price (s - min s a.size) (le_refl _) hp
        (fun x hx => hsz x (List.mem_cons_of_mem a hx)) (by linarith)
    have hsplit : s * a.price
        = min s a.size * a.price + (s - min s a.size) * a.price := by ring
    linarith

lemma walkCost_cons_le (a : PriceLevel) (rest : List PriceLevel) (last s : ℚ)
    (hp : ∀ l ∈ rest, l.price ≤ a.price) (hsz : ∀ l ∈ a :: rest, 0 ≤ l.size)
    (hs : 0 ≤ s) :
    walkCost last (a :: rest) s ≤ s * a.price := by
  unfold walkCost
  by_cases h : s ≤ 0
  · rw [if_pos h]
    have hs0 : s = 0 := le_antisymm h hs
    simp [hs0]
  · push_neg at h
    rw [if_neg (not_le.mpr h)]
    have hsize : 0 ≤ a.size := hsz a (List.mem_cons_self a rest)
    have hf0 : 0 ≤ min s a.size := le_min hs hsize
    have hfle : min s a.size ≤ s := min_le_left s a.size
    have hrest : walkCost a.price rest (s - min s a.size)
        ≤ (s - min s a.size) * a.price :=
      walkCost_le a.price rest a.price (s - min s a.size) (le_refl _) hp
        (fun x hx => hsz x (List.mem_cons_of_mem a hx)) (by linarith)
    have hsplit : s * a.price
        = min s a.size * a.price + (s - min s a.size) * a.price := by ring
    linarith

lemma walkMarg_ge (q : ℚ) (L : List PriceLevel) :
    ∀ (last s : ℚ), q ≤ last → (∀ l ∈ L, q ≤ l.price) → q ≤ walkMarg last L s := by
  induction L with
  | nil => intro last s h _; simpa [walkMarg] using h
  | cons l rest ih =>
      intro last s hlast hp
      unfold walkMarg
      by_cases h : s ≤ l.size
      · rw [if_pos h]
        exact hp l (List.mem_cons_self l rest)
      · rw [if_neg h]
        exact ih l.price (s - l.size) (hp l (List.mem_cons_self l rest))
          (fun x hx => hp x (List.mem_cons_of_mem l hx))

lemma walkMarg_le (q : ℚ) (L : List PriceLevel) :
    ∀ (last s : ℚ), last ≤ q → (∀ l ∈ L, l.price ≤ q) → walkMarg last L s ≤ q := by
  induction L with
  | nil => intro last s h _; simpa [walkMarg] using h
  | cons l rest ih =>
      intro last s hlast hp
      unfold walkMarg
      by_cases h : s ≤ l.size
      · rw [if_pos h]
        exact hp l (List.mem_cons_self l rest)
      · rw [if_neg h]
        exact ih l.price (s - l.size) (hp l (List.mem_cons_self l rest))
          (fun x hx => hp x (List.mem_cons_of_mem l hx))

lemma walkCost_le_marg (L : List PriceLevel) :
    ∀ (last s : ℚ), sortedAsc L → (∀ l ∈ L, 0 ≤ l.size) → 0 ≤ s →
      walkCost last L s ≤ s * walkMarg last L s := by
  induction L with
  | nil =>
      intro last s _ _ hs
      unfold walkCost walkMarg
      by_cases h : 0 < s
      · rw [if_pos h]
      · rw [if_neg h]
        have hs0 : s = 0 := le_antisymm (not_lt.mp h) hs
        simp [hs0]
  | cons l rest ih =>
      intro last s hsort hsz hs
      obtain ⟨hhead, htail⟩ := List.pairwise_cons.mp hsort
      unfold walkCost walkMarg
      by_cases h : s ≤ 0
      · rw [if_pos h]
        have hs0 : s = 0 := le_antisymm h hs
        simp [hs0]
      · push_neg at h
        rw [if_neg (not_le.mpr h)]
        by_cases hσ : s ≤ l.size
        · rw [if_pos hσ, min_eq_left hσ, sub_self,
            walkCost_nonpos l.price rest 0 (le_refl 0)]
          simp
        · push_neg at hσ
          rw [if_neg (not_le.mpr hσ), min_eq_right (le_of_lt hσ)]
          have hsize : 0 ≤ l.size := hsz l (List.mem_cons_self l rest)
          have hm : l.price ≤ walkMarg l.price rest (s - l.size) :=
            walkMarg_ge l.price rest l.price (s - l.size) (le_refl _) hhead
          have hrec := ih l.price (s - l.size) htail
            (fun x hx => hsz x (List.mem_cons_of_mem l hx)) (by linarith)
          have hσM : l.size * l.price
              ≤ l.size * walkMarg l.price rest (s - l.size) :=
            mul_le_mul_of_nonneg_left hm hsize
          have hsplit : s * walkMarg l.price rest (s - l.size)
              = l.size * walkMarg l.price rest (s - l.size)
                + (s - l.size) * walkMarg l.price rest (s - l.size) := by ring
          linarith

lemma walkCost_ge_marg (L : List PriceLevel) :
    ∀ (last s : ℚ), sortedDesc L → (∀ l ∈ L, 0 ≤ l.size) → 0 ≤ s →
      s * walkMarg last L s ≤ walkCost last L s := by
  induction L with
  | nil =>
      intro last s _ _ hs
      unfold walkCost walkMarg
      by_cases h : 0 < s
      · rw [if_pos h]
      · rw [if_neg h]
        have hs0 : s = 0 := le_antisymm (not_lt.mp h) hs
        simp [hs0]
  | cons l rest ih =>
      intro last s hsort hsz hs
      obtain ⟨hhead, htail⟩ := List.pairwise_cons.mp hsort
      unfold walkCost walkMarg
      by_cases h : s ≤ 0
      · rw [if_pos h]
        have hs0 : s = 0 := le_antisymm h hs
        simp [hs0]
      · push_neg at h
        rw [if_neg (not_le.mpr h)]
        by_cases hσ : s ≤ l.size
        · rw [if_pos hσ, min_eq_left hσ, sub_self,
            walkCost_nonpos l.price rest 0 (le_refl 0)]
          simp
        · push_neg at hσ
          rw [if_neg (not_le.mpr hσ), min_eq_right (le_of_lt hσ)]
          have hsize : 0 ≤ l.size := hsz l (List.mem_cons_self l rest)
          have hm : walkMarg l.price rest (s - l.size) ≤ l.price :=
            walkMarg_le l.price rest l.price (s - l.size) (le_refl _) hhead
          have hrec := ih l.price (s - l.size) htail
            (fun x hx => hsz x (List.mem_cons_of_mem l hx)) (by linarith)
          have hσM : l.size * walkMarg l.price rest (s - l.size)
              ≤ l.size * l.price :=
            mul_le_mul_of_nonneg_left hm hsize
          have hsplit : s * walkMarg l.price rest (s - l.size)
              = l.size * walkMarg l.price rest (s - l.size)
                + (s - l.size) * walkMarg l.price rest (s - l.size) := by ring
          linarith

lemma walkCost_superadd (L : List PriceLevel) :
    ∀ (last s1 s2 : ℚ), sortedAsc L → (∀ l ∈ L, 0 ≤ l.size) → 0 ≤ s1 → s1 ≤ s2 →
      walkCost last L s1 + (s2 - s1) * walkMarg last L s1 ≤ walkCost last L s2 := by
  induction L with
  | nil =>
      intro last s1 s2 _ _ h0 h12
      unfold walkCost walkMarg
      by_cases h1 : 0 < s1
      · rw [if_pos h1, if_pos (lt_of_lt_of_le h1 h12)]
        have hsplit : s1 * last + (s2 - s1) * last = s2 * last := by ring
        linarith
      · have hs10 : s1 = 0 := le_antisymm (not_lt.mp h1) h0
        subst hs10
        rw [if_neg h1]
        by_cases h2 : 0 < s2
        · rw [if_pos h2]
          have hsplit : (0 : ℚ) + (s2 - 0) * last = s2 * last := by ring
          linarith
        · rw [if_neg h2]
          have hs20 : s2 = 0 := le_antisymm (not_lt.mp h2) h12
          simp [hs20]
  | cons l rest ih =>
      intro last s1 s2 hsort hsz h0 h12
      obtain ⟨hhead, htail⟩ := List.pairwise_cons.mp hsort
      by_cases h1 : s1 ≤ 0
      · have hs10 : s1 = 0 := le_antisymm h1 h0
        subst hs10
        rw [walkCost_nonpos last (l :: rest) 0 (le_refl 0)]
        have hmarg0 : walkMarg last (l :: rest) 0 = l.price := by
          unfold walkMarg
          rw [if_pos (hsz l (List.mem_cons_self l rest))]
        rw [hmarg0]
        have hge := walkCost_cons_ge l rest last s2 hhead hsz h12
        have hsplit : (0 : ℚ) + (s2 - 0) * l.price = s2 * l.price := by ring
        linarith
      · push_neg at h1
        have h2pos : 0 < s2 := lt_of_lt_of_le h1 h12
        unfold walkCost walkMarg
        rw [if_neg (not_le.mpr h1), if_neg (not_le.mpr h2pos)]
        by_cases hσ : s1 ≤ l.size
        · rw [if_pos hσ, min_eq_left hσ, sub_self,
            walkCost_nonpos l.price rest 0 (le_refl 0)]
          have hge := walkCost_ge l.price rest l.price (s2 - min s2 l.size)
            (le_refl _) hhead
            (fun x hx => hsz x (List.mem_cons_of_mem l hx))
            (by have := min_le_left s2 l.size; linarith)
          have hminle : min s2 l.size ≤ s2 := min_le_left s2 l.size
          have hsplit : s1 * l.price + 0 + (s2 - s1) * l.price
              = min s2 l.size * l.price + (s2 - min s2 l.size) * l.price := by ring
          linarith
        · push_neg at hσ
          have hσ2 : l.size ≤ s2 := le_trans (le_of_lt hσ) h12
          rw [if_neg (not_le.mpr hσ), min_eq_right (le_of_lt hσ),
            min_eq_right hσ2]
          have hrec := ih l.price (s1 - l.size) (s2 - l.size) htail
            (fun x hx => hsz x (List.mem_cons_of_mem l hx))
            (by linarith) (by linarith)
          have harg : s2 - l.size - (s1 - l.size) = s2 - s1 := by ring
          rw [harg] at hrec
          linarith

lemma walkCost_subadd (L : List PriceLevel) :
    ∀ (last s1 s2 : ℚ), sortedDesc L → (∀ l ∈ L, 0 ≤ l.size) → 0 ≤ s1 → s1 ≤ s2 →
      walkCost last L s2 ≤ walkCost last L s1 + (s2 - s1) * walkMarg last L s1 := by
  induction L with
  | nil =>
      intro last s1 s2 _ _ h0 h12
      unfold walkCost walkMarg
      by_cases h1 : 0 < s1
      · rw [if_pos h1, if_pos (lt_of_lt_of_le h1 h12)]
        have hsplit : s1 * last + (s2 - s1) * last = s2 * last := by ring
        linarith
      · have hs10 : s1 = 0 := le_antisymm (not_lt.mp h1) h0
        subst hs10
        rw [if_neg h1]
        by_cases h2 : 0 < s2
        · rw [if_pos h2]
          have hsplit : (0 : ℚ) + (s2 - 0) * last = s2 * last := by ring
          linarith
        · rw [if_neg h2]
          have hs20 : s2 = 0 := le_antisymm (not_lt.mp h2) h12
          simp [hs20]
  | cons l rest ih =>
      intro last s1 s2 hsort hsz h0 h12
      obtain ⟨hhead, htail⟩ := List.pairwise_cons.mp hsort
      by_cases h1 : s1 ≤ 0
      · have hs10 : s1 = 0 := le_antisymm h1 h0
        subst hs10
        rw [walkCost_nonpos last (l :: rest) 0 (le_refl 0)]
        have hmarg0 : walkMarg last (l :: rest) 0 = l.price := by
          unfold walkMarg
          rw [if_pos (hsz l (List.mem_cons_self l rest))]
        rw [hmarg0]
        have hle := walkCost_cons_le l rest last s2 hhead hsz h12
        have hsplit : (0 : ℚ) + (s2 - 0) * l.price = s2 * l.price := by ring
        linarith
      · push_neg at h1
        have h2pos : 0 < s2 := lt_of_lt_of_le h1 h12
        unfold walkCost walkMarg
        rw [if_neg (not_le.mpr h1), if_neg (not_le.mpr h2pos)]
        by_cases hσ : s1 ≤ l.size
        · rw [if_pos hσ, min_eq_left hσ, sub_self,
            walkCost_nonpos l.price rest 0 (le_refl 0)]
          have hle := walkCost_le l.price rest l.price (s2 - min s2 l.size)
            (le_refl _) hhead
            (fun x hx => hsz x (List.mem_cons_of_mem l hx))
            (by have := min_le_left s2 l.size; linarith)
          have hminle : min s2 l.size ≤ s2 := min_le_left s2 l.size
          have hminp : min s2 l.size * l.price ≤ s2 * l.price ∨ True := Or.inr trivial
          have hsplit : s1 * l.price + 0 + (s2 - s1) * l.price
              = min s2 l.size * l.price + (s2 - min s2 l.size) * l.price := by ring
          linarith
        · push_neg at hσ
          have hσ2 : l.size ≤ s2 := le_trans (le_of_lt hσ) h12
          rw [if_neg (not_le.mpr hσ), min_eq_right (le_of_lt hσ),
            min_eq_right hσ2]
          have hrec := ih l.price (s1 - l.size) (s2 - l.size) htail
            (fun x hx => hsz x (List.mem_cons_of_mem l hx))
            (by linarith) (by linarith)
          have harg : s2 - l.size - (s1 - l.size) = s2 - s1 := by ring
          rw [harg] at hrec
          linarith

lemma buy_slippage_mono (ob : Orderbook) (s1 s2 : ℚ)
    (hasc : sortedAsc ob.asks) (hsz : sizesNonneg ob.asks)
    (hba : 0 < ob.best_ask) (h0 : 0 ≤ s1) (h12 : s1 ≤ s2) :
    ob.estimate_buy_slippage s1 ≤ ob.estimate_buy_slippage s2 := by
  by_cases hs2 : s2 ≤ 0
  · have hs1 : s1 ≤ 0 := le_trans h12 hs2
    unfold Orderbook.estimate_buy_slippage
    rw [if_pos (Or.inr hs1), if_pos (Or.inr hs2)]
  · push_neg at hs2
    have hne : ob.asks ≠ [] := by
      intro hA
      have : ob.best_ask = 0 := by unfold Orderbook.best_ask; rw [hA]
      rw [this] at hba
      exact lt_irrefl 0 hba
    obtain ⟨a, rest, hA⟩ : ∃ a rest, ob.asks = a :: rest := by
      cases hAx : ob.asks with
      | nil => exact absurd hAx hne
      | cons a rest => exact ⟨a, rest, rfl⟩
    have hbest : ob.best_ask = a.price := by unfold Orderbook.best_ask; rw [hA]
    have hhead : ∀ l ∈ rest, a.price ≤ l.price :=
      (List.pairwise_cons.mp (hA ▸ hasc)).1
    have hszA : ∀ l ∈ a :: rest, 0 ≤ l.size := hA ▸ hsz
    by_cases hs1 : s1 ≤ 0
    · unfold Orderbook.estimate_buy_slippage
      rw [if_pos (Or.inr hs1), if_neg (by simp [hA, hs2.not_le])]
      dsimp only
      have hcost : s2 * a.price ≤ walkCost 0 ob.asks s2 := by
        rw [hA]
        exact walkCost_cons_ge a rest 0 s2 hhead hszA (le_of_lt hs2)
      have havg : ob.best_ask ≤ walkCost 0 ob.asks s2 / s2 := by
        rw [hbest, le_div_iff₀ hs2]
        linarith
      apply mul_nonneg _ (by norm_num : (0:ℚ) ≤ 100)
      apply div_nonneg _ (le_of_lt hba)
      linarith
    · push_neg at hs1
      unfold Orderbook.estimate_buy_slippage
      rw [if_neg (by simp [hA, hs1.not_le]), if_neg (by simp [hA, hs2.not_le])]
      dsimp only
      have hI1 := walkCost_le_marg ob.asks 0 s1 hasc hsz h0
      have hI2 := walkCost_superadd ob.asks 0 s1 s2 hasc hsz h0 h12
      have hkey : walkCost 0 ob.asks s1 * s2 ≤ walkCost 0 ob.asks s2 * s1 := by
        have ha1 := mul_le_mul_of_nonneg_right hI2 (le_of_lt hs1)
        have ha2 := mul_le_mul_of_nonneg_left hI1
          (by linarith : (0:ℚ) ≤ s2 - s1)
        nlinarith [ha1, ha2]
      have havg : walkCost 0 ob.asks s1 / s1 ≤ walkCost 0 ob.asks s2 / s2 :=
        (div_le_div_iff₀ hs1 hs2).mpr hkey
      have hnum : walkCost 0 ob.asks s1 / s1 - ob.best_ask
          ≤ walkCost 0 ob.asks s2 / s2 - ob.best_ask := by linarith
      have hd : (walkCost 0 ob.asks s1 / s1 - ob.best_ask) / ob.best_ask
          ≤ (walkCost 0 ob.asks s2 / s2 - ob.best_ask) / ob.best_ask := by
        rw [div_le_div_iff₀ hba hba]
        exact mul_le_mul_of_nonneg_right hnum (le_of_lt hba)
      exact mul_le_mul_of_nonneg_right hd (by norm_num)

lemma sell_slippage_mono (ob : Orderbook) (s1 s2 : ℚ)
    (hdesc : sortedDesc ob.bids) (hsz : sizesNonneg ob.bids)
    (hbb : 0 < ob.best_bid) (h0 : 0 ≤ s1) (h12 : s1 ≤ s2) :
    ob.estimate_sell_slippage s1 ≤ ob.estimate_sell_slippage s2 := by
  by_cases hs2 : s2 ≤ 0
  · have hs1 : s1 ≤ 0 := le_trans h12 hs2
    unfold Orderbook.estimate_sell_slippage
    rw [if_pos (Or.inr hs1), if_pos (Or.inr hs2)]
  · push_neg at hs2
    have hne : ob.bids ≠ [] := by
      intro hB
      have : ob.best_bid = 0 := by unfold Orderbook.best_bid; rw [hB]
      rw [this] at hbb
      exact lt_irrefl 0 hbb
    obtain ⟨a, rest, hB⟩ : ∃ a rest, ob.bids = a :: rest := by
      cases hBx : ob.bids with
      | nil => exact absurd hBx hne
      | cons a rest => exact ⟨a, rest, rfl⟩
    have hbest : ob.best_bid = a.price := by unfold Orderbook.best_bid; rw [hB]
    have hhead : ∀ l ∈ rest, l.price ≤ a.price :=
      (List.pairwise_cons.mp (hB ▸ hdesc)).1
    have hszB : ∀ l ∈ a :: rest, 0 ≤ l.size := hB ▸ hsz
    by_cases hs1 : s1 ≤ 0
    · unfold Orderbook.estimate_sell_slippage
      rw [if_pos (Or.inr hs1), if_neg (by simp [hB, hs2.not_le])]
      dsimp only
      have hcost : walkCost 0 ob.bids s2 ≤ s2 * a.price := by
        rw [hB]
        exact walkCost_cons_le a rest 0 s2 hhead hszB (le_of_lt hs2)
      have havg : walkCost 0 ob.bids s2 / s2 ≤ ob.best_bid := by
        rw [hbest, div_le_iff₀ hs2]
        linarith
      apply mul_nonneg _ (by norm_num : (0:ℚ) ≤ 100)
      apply div_nonneg _ (le_of_lt hbb)
      linarith
    · push_neg at hs1
      unfold Orderbook.estimate_sell_slippage
      rw [if_neg (by simp [hB, hs1.not_le]), if_neg (by simp [hB, hs2.not_le])]
      dsimp only
      have hI1 := walkCost_ge_marg ob.bids 0 s1 hdesc hsz h0
      have hI2 := walkCost_subadd ob.bids 0 s1 s2 hdesc hsz h0 h12
      have hkey : walkCost 0 ob.bids s2 * s1 ≤ walkCost 0 ob.bids s1 * s2 := by
        have ha1 := mul_le_mul_of_nonneg_right hI2 (le_of_lt hs1)
        have ha2 := mul_le_mul_of_nonneg_left hI1
          (by linarith : (0:ℚ) ≤ s2 - s1)
        nlinarith [ha1, ha2]
      have havg : walkCost 0 ob.bids s2 / s2 ≤ walkCost 0 ob.bids s1 / s1 :=
        (div_le_div_iff₀ hs2 hs1).mpr hkey
      have hnum : ob.best_bid - walkCost 0 ob.bids s1 / s1
          ≤ ob.best_bid - walkCost 0 ob.bids s2 / s2 := by linarith
      have hd : (ob.best_bid - walkCost 0 ob.bids s1 / s1) / ob.best_bid
          ≤ (ob.best_bid - walkCost 0 ob.bids s2 / s2) / ob.best_bid := by
        rw [div_le_div_iff₀ hbb hbb]
        exact mul_le_mul_of_nonneg_right hnum (le_of_lt hbb)
      exact mul_le_mul_of_nonneg_right hd (by norm_num)

/-- C6: for an orderbook whose asks are sorted ascending and bids descending
(with the data-model size invariant `size ≥ 0`) and positive best prices,
walk-the-book slippage is monotone non-decreasing in the requested size, on
both the buy and the sell side. -/
theorem c6_slippage_monotone (ob : Orderbook) (s1 s2 : ℚ)
    (hasc : sortedAsc ob.asks) (hdesc : sortedDesc ob.bids)
    (hszA : sizesNonneg ob.asks) (hszB : sizesNonneg ob.bids)
    (hba : 0 < ob.best_ask) (hbb : 0 < ob.best_bid)
    (h0 : 0 ≤ s1) (h12 : s1 ≤ s2) :
    ob.estimate_buy_slippage s1 ≤ ob.estimate_buy_slippage s2
    ∧ ob.estimate_sell_slippage s1 ≤ ob.estimate_sell_slippage s2 :=
  ⟨buy_slippage_mono ob s1 s2 hasc hszA hba h0 h12,
    sell_slippage_mono ob s1 s2 hdesc hszB hbb h0 h12⟩

/-- C6 witness: the monotonicity theorem applied to a concrete two-level book
at sizes 1 and 3, with each hypothesis discharged by evaluation. -/
theorem c6_witness :
    (sortedAsc c6Book.asks ∧ sortedDesc c6Book.bids
      ∧ sizesNonneg c6Book.asks ∧ sizesNonneg c6Book.bids
      ∧ 0 < c6Book.best_ask ∧ 0 < c6Book.best_bid)
    ∧ c6Book.estimate_buy_slippage 1 ≤ c6Book.estimate_buy_slippage 3
    ∧ c6Book.estimate_sell_slippage 1 ≤ c6Book.estimate_sell_slippage 3 := by
  refine ⟨by with_unfolding_all decide, ?_⟩
  exact c6_slippage_monotone c6Book 1 3 (by with_unfolding_all decide)
    (by with_unfolding_all decide) (by with_unfolding_all decide)
    (by with_unfolding_all decide) (by with_unfolding_all decide)
    (by with_unfolding_all decide) (by with_unfolding_all decide)
    (by with_unfolding_all decide)

end ArbBot
